import Mathlib

/-!
# Verification of YarrL's spatial-reasoning core (pathfinding and field of view)

Shallow embedding of `src/pathfinding.rs`, `src/map.rs`, `src/util.rs` and
`src/fov.rs` of the YarrL repository, with theorems settling the claims about
the Router (`find_path`) and the Visibility Scanner (`calc_v_matrix`).

Modelling conventions:
* Rust's unbounded `while`/`loop` constructs are given a fuel parameter;
  running out of fuel yields `Except.error RErr.fuelOut` (so nontermination of
  the source is observable as `fuelOut` at every fuel).
* A Rust panic (out-of-bounds index, `unwrap` of `None`) yields
  `Except.error RErr.panicked`.
* `usize`/`i32` arithmetic is modelled on `Nat`/`Int`.  The source casts
  `usize → i32` and back around bounds checks; those casts are the identity
  for all coordinates and grid dimensions below 2^31, which covers every grid
  the program can allocate, so the embedding uses exact integer arithmetic.
* Rust's `BinaryHeap::pop` returns a maximal element but leaves the order of
  equal elements unspecified; `extractMax` resolves ties by insertion order,
  the policy the spec itself prescribes ("Ties broken by insertion order").
* `HashSet`s / `HashMap`s are modelled as lists with membership / first-match
  lookup; the embedded code never inserts a duplicate key.
-/

namespace YarrL

/-- Outcome of a failed run of embedded Rust code: a panic, or fuel
exhaustion (modelling divergence of the source's unbounded loops). -/
inductive RErr where
  | panicked
  | fuelOut
deriving DecidableEq, Repr

/-- Result of running embedded Rust code. -/
abbrev Res (α : Type) := Except RErr α

/-- `(u8, u8, u8)` colour triples from `display.rs`. -/
abbrev Color := Nat × Nat × Nat

/-- `display.rs`: `pub static WHITE: (u8, u8, u8) = (255, 255, 255);` -/
def WHITE : Color := (255, 255, 255)

/-- `display.rs`: `pub static BROWN: (u8, u8, u8) = (150, 75, 0);` -/
def BROWN : Color := (150, 75, 0)

/-- `display.rs`: `pub static LIGHT_BLUE: (u8, u8, u8) = (55, 198, 255);` -/
def LIGHT_BLUE : Color := (55, 198, 255)

/-- The `Tile` enum of `map.rs`.  The `Creature` and `Fog` variants are
constructed and matched by `fov.rs` (`calc_actual_tile`, `mark_visible`);
the copy of `map.rs` in the snapshot predates them, so their payloads are
taken from their construction sites in `fov.rs`
(`Tile::Creature(ti.1, ti.0)` with `ti : (char, (u8,u8,u8))`, and
`Tile::Fog` with no payload). -/
inductive Tile where
  | Blank
  | Wall
  | WoodWall
  | Tree
  | Dirt
  | Grass
  | Player (c : Color)
  | Water
  | DeepWater
  | WorldEdge
  | Sand
  | Mountain
  | SnowPeak
  | Gate
  | StoneFloor
  | Thing (c : Color) (ch : Char)
  | Separator
  | ShipPart (ch : Char)
  | Shipwreck (ch : Char) (s : String)
  | Mast (ch : Char)
  | Bullet (ch : Char)
  | Lava
  | FirePit
  | OldFirePit
  | Floor
  | Window (ch : Char)
  | Creature (c : Color) (ch : Char)
  | Fog
deriving DecidableEq, Repr

/-- The grid: `Vec<Vec<Tile>>`. -/
abbrev GMap := List (List Tile)

/-- `(usize, usize)` grid coordinates. -/
abbrev Coord := Nat × Nat

/-- `map.rs::in_bounds`.  The source computes `map.len() as i32` and
`map[0].len() as i32`; `map[0]` panics on an empty grid, where the embedding
returns `false` (no caller reaches `in_bounds` with an empty grid without
panicking earlier). -/
def in_bounds (map : GMap) (r c : Int) : Bool :=
  let height : Int := map.length
  let width : Int := (map.headD []).length
  r ≥ 0 && c ≥ 0 && r < height && c < width

/-- `map[r][c]` at indices already validated by `in_bounds` (the source
panics when a validated index is still out of range, which only happens for
a ragged grid; theorems about ragged-sensitive code paths assume a
rectangular grid). -/
def tileAt (map : GMap) (r c : Nat) : Tile :=
  (map.getD r []).getD c Tile.Blank

/-- A grid is rectangular: every row has the width of row 0. -/
def Rect (map : GMap) : Prop :=
  ∀ row ∈ map, row.length = (map.headD []).length

/-- `map.rs::is_clear`. -/
def is_clear (tile : Tile) : Bool :=
  match tile with
  | .Wall | .Blank | .Mountain | .SnowPeak | .WoodWall => false
  | _ => true

/-- The caller-supplied passability set (`HashSet<map::Tile>`). -/
abbrev TileSet := List Tile

/-- `pathfinding.rs::passable_by_me`. -/
def passable_by_me (tile : Tile) (valid : TileSet) : Bool :=
  valid.contains tile

/-- Modelled from the spec: `util::manhattan_d` is imported by
`pathfinding.rs` but absent from the snapshot of `util.rs`; the spec fixes
the heuristic as the Manhattan distance ("Heuristic = Manhattan ...
distance to goal"). -/
def manhattan_d (r0 c0 r1 c1 : Nat) : Nat :=
  (max r0 r1 - min r0 r1) + (max c0 c1 - min c0 c1)

/-- Integer square root by downward scan (equal to `Nat.sqrt`, but defined
by structural recursion so the kernel can evaluate it). -/
def isqrtFrom (n : Nat) : Nat → Nat
  | 0 => 0
  | k + 1 => if (k + 1) * (k + 1) ≤ n then k + 1 else isqrtFrom n k

/-- The largest `k` with `k * k ≤ n`. -/
def isqrt (n : Nat) : Nat := isqrtFrom n n

/-- `util.rs::cartesian_d`: squared Euclidean distance through `i32`, then
`f32::sqrt` truncated back to `usize`.  For the magnitudes any grid in the
game produces (well below 2^24) the truncated `f32` square root is the
integer square root. -/
def cartesian_d (r0 c0 r1 c1 : Nat) : Nat :=
  isqrt (((r0 : Int) - r1) * ((r0 : Int) - r1)
    + ((c0 : Int) - c1) * ((c0 : Int) - c1)).toNat

/-- `pathfinding.rs::ASNode`. -/
structure ASNode where
  loc : Coord
  parent : Coord
  f : Nat
  g : Nat
  h : Nat
deriving DecidableEq, Repr

/-- `pathfinding.rs::ASQueueItem`; `Ord` compares only `f`. -/
structure ASQueueItem where
  loc : Coord
  f : Int
deriving DecidableEq, Repr

/-- `BinaryHeap::pop`: remove a maximal-`f` item.  Ties go to the earliest
inserted item (the spec's "ties broken by insertion order"; Rust's std heap
leaves tie order unspecified).  The remaining items keep their order. -/
def extractMax : List ASQueueItem → Option (ASQueueItem × List ASQueueItem)
  | [] => none
  | x :: rest =>
    match extractMax rest with
    | none => some (x, [])
    | some (y, ys) => if y.f > x.f then some (y, x :: ys) else some (x, rest)

/-- The `nodes` hash map of `astar`. -/
abbrev NodeMap := List (Coord × ASNode)

/-- `nodes.get(&k)` (first match; keys are never inserted twice). -/
def findNode (nodes : NodeMap) (k : Coord) : Option ASNode :=
  (nodes.find? (fun p => p.1 = k)).map (·.2)

/-- `nodes.contains_key(&k)`. -/
def containsNode (nodes : NodeMap) (k : Coord) : Bool :=
  nodes.any (fun p => p.1 = k)

/-- `nodes.insert(k, v)` (call sites only insert absent keys). -/
def insertNode (nodes : NodeMap) (k : Coord) (v : ASNode) : NodeMap :=
  (k, v) :: nodes

/-- The cheaper-path update of `astar` (lines 199-203): on `g < nodes[&next.loc].g`
the source sets `n.g = g` and `n.parent = (nr, nc)` — the node's own
coordinates, not `current.loc`. -/
def relaxNode (nodes : NodeMap) (k : Coord) (g : Nat) : NodeMap :=
  nodes.map (fun p => if p.1 = k then (p.1, { p.2 with g := g, parent := k }) else p)

/-- The neighbourhood offsets produced by `for r in -1..2 { for c in -1..2 {`
with `r == 0 && c == 0` skipped, in source iteration order. -/
def offsets8 : List (Int × Int) :=
  [(-1, -1), (-1, 0), (-1, 1), (0, -1), (0, 1), (1, -1), (1, 0), (1, 1)]

/-- One iteration of the `while` loop of
`pathfinding.rs::get_path_from_nodes`; `recur` is the next iteration. -/
def tracePathBody (nodes : NodeMap) (sr sc : Nat)
    (recur : Nat → Nat → List Coord → Res (List Coord))
    (cr cc : Nat) (path : List Coord) : Res (List Coord) :=
  if cr ≠ sr ∨ cc ≠ sc then
    match findNode nodes (cr, cc) with
    | none => .error .panicked
    | some n => recur n.parent.1 n.parent.2 (path ++ [(cr, cc)])
  else
    .ok ((path ++ [(sr, sc)]).reverse)

/-- `pathfinding.rs::get_path_from_nodes`, with the trailing
`path.push((sr, sc)); path.reverse()`.  The accumulator is the `path`
vector; fuel bounds the `while` loop. -/
def get_path_from_nodes (nodes : NodeMap) (sr sc : Nat) :
    Nat → Nat → Nat → List Coord → Res (List Coord)
  | 0, _, _, _ => .error .fuelOut
  | fuel + 1, cr, cc, path =>
    tracePathBody nodes sr sc (get_path_from_nodes nodes sr sc fuel) cr cc path

/-- One neighbour of the inner double loop of `astar` (lines 172-205). -/
def astarNeighbor (map : GMap) (pass : TileSet) (er ec : Nat) (cur : Coord)
    (visited : List Coord) (acc : NodeMap × List ASQueueItem) (off : Int × Int) :
    Res (NodeMap × List ASQueueItem) :=
  let nodes := acc.1
  let openq := acc.2
  let nrI : Int := (cur.1 : Int) + off.1
  let ncI : Int := (cur.2 : Int) + off.2
  if ¬ in_bounds map nrI ncI then .ok (nodes, openq)
  else
    let nr := nrI.toNat
    let nc := ncI.toNat
    if ¬ passable_by_me (tileAt map nr nc) pass then .ok (nodes, openq)
    else
      match findNode nodes cur with
      | none => .error .panicked
      | some curN =>
        let g := curN.g + 1
        let h := manhattan_d nr nc er ec
        let f := g + h
        let next : ASNode := ⟨(nr, nc), cur, f, g, h⟩
        let openq' := if visited.contains (nr, nc) then openq
          else openq ++ [⟨(nr, nc), -(f : Int)⟩]
        if ¬ containsNode nodes (nr, nc) then
          .ok (insertNode nodes (nr, nc) next, openq')
        else
          match findNode nodes (nr, nc) with
          | none => .error .panicked
          | some old =>
            if g < old.g then .ok (relaxNode nodes (nr, nc) g, openq')
            else .ok (nodes, openq')

/-- The state of `astar`'s main loop. -/
structure AStarSt where
  nodes : NodeMap
  openq : List ASQueueItem
  visited : List Coord
deriving Repr

/-- One iteration of the `while open.len() > 0` loop of `astar`
(lines 160-206); `fuel` is the remaining fuel and `recur` the next
iteration. -/
def astarBody (map : GMap) (pass : TileSet) (sr sc er ec : Nat)
    (fuel : Nat) (recur : AStarSt → Res (List Coord)) (st : AStarSt) :
    Res (List Coord) :=
  match extractMax st.openq with
  | none => .ok []
  | some (current, rest) =>
    if current.loc = (er, ec) then
      get_path_from_nodes st.nodes sr sc fuel er ec []
    else
      let visited := if st.visited.contains current.loc then st.visited
        else current.loc :: st.visited
      match offsets8.foldlM (astarNeighbor map pass er ec current.loc visited)
          (st.nodes, rest) with
      | .error e => .error e
      | .ok (nodes, openq) => recur ⟨nodes, openq, visited⟩

/-- The `while open.len() > 0` loop of `astar` (lines 160-206). -/
def astarLoop (map : GMap) (pass : TileSet) (sr sc er ec : Nat) :
    Nat → AStarSt → Res (List Coord)
  | 0, _ => .error .fuelOut
  | fuel + 1, st =>
    astarBody map pass sr sc er ec fuel (astarLoop map pass sr sc er ec fuel) st

/-- `pathfinding.rs::astar`. -/
def astar (map : GMap) (sr sc er ec : Nat) (pass : TileSet) (fuel : Nat) :
    Res (List Coord) :=
  astarLoop map pass sr sc er ec fuel
    ⟨insertNode [] (sr, sc) ⟨(sr, sc), (sr, sc), 0, 0, 0⟩, [⟨(sr, sc), 0⟩], []⟩

/-- The state of the flood fill of `find_nearest_reachable`. -/
structure FloodSt where
  sqs : List ASQueueItem
  visited : List Coord
  queue : List Coord
deriving Repr

/-- One neighbour of the inner double loop of `find_nearest_reachable`
(lines 110-127): bounds, passability, the Manhattan 30-cap, then enqueue. -/
def floodNeighbor (map : GMap) (pass : TileSet) (sr sc : Nat) (cur : Coord)
    (visited : List Coord) (q : List Coord) (off : Int × Int) : List Coord :=
  let nrI : Int := (cur.1 : Int) + off.1
  let ncI : Int := (cur.2 : Int) + off.2
  if ¬ in_bounds map nrI ncI then q
  else
    let nr := nrI.toNat
    let nc := ncI.toNat
    if ¬ passable_by_me (tileAt map nr nc) pass then q
    else if 30 < manhattan_d sr sc nr nc then q
    else if visited.contains (nr, nc) then q
    else q ++ [(nr, nc)]

/-- One iteration of the `while queue.len() > 0` loop of
`find_nearest_reachable` (lines 102-128), with the final heap pop
(lines 130-135) in the empty-queue case; `recur` is the next iteration. -/
def floodBody (map : GMap) (pass : TileSet) (sr sc er ec : Nat)
    (recur : FloodSt → Res Coord) (st : FloodSt) : Res Coord :=
  match st.queue with
  | [] =>
    match extractMax st.sqs with
    | some (n, _) => .ok n.loc
    | none => .ok (0, 0)
  | curr :: rest =>
    if st.visited.contains curr then
      recur ⟨st.sqs, st.visited, rest⟩
    else
      let visited := curr :: st.visited
      let dis : Nat := cartesian_d er ec curr.1 curr.2
      let sqs := st.sqs ++ [⟨curr, -(dis : Int)⟩]
      let queue := offsets8.foldl (floodNeighbor map pass sr sc curr visited) rest
      recur ⟨sqs, visited, queue⟩

/-- The `while queue.len() > 0` loop of `find_nearest_reachable`
(lines 102-128) together with the final heap pop (lines 130-135). -/
def floodLoop (map : GMap) (pass : TileSet) (sr sc er ec : Nat) :
    Nat → FloodSt → Res Coord
  | 0, _ => .error .fuelOut
  | fuel + 1, st =>
    floodBody map pass sr sc er ec (floodLoop map pass sr sc er ec fuel) st

/-- `pathfinding.rs::find_nearest_reachable`. -/
def find_nearest_reachable (map : GMap) (sr sc er ec : Nat) (pass : TileSet)
    (fuel : Nat) : Res Coord :=
  floodLoop map pass sr sc er ec fuel ⟨[], [], [(sr, sc)]⟩

/-- `pathfinding.rs::find_path`.  The first operation of the source is the
unchecked index `map[end_r][end_c]`. -/
def find_path (map : GMap) (sr sc er ec : Nat) (pass : TileSet) (fuel : Nat) :
    Res (List Coord) :=
  match (map.get? er).bind (fun row => row.get? ec) with
  | none => .error .panicked
  | some t =>
    if ¬ passable_by_me t pass then
      match find_nearest_reachable map sr sc er ec pass fuel with
      | .error e => .error e
      | .ok res =>
        if res = ((0, 0) : Coord) then .ok []
        else astar map sr sc res.1 res.2 pass fuel
    else
      astar map sr sc er ec pass fuel

/-! ## Field of view (`fov.rs`) and the slices of `actor.rs`, `items.rs`,
`weather.rs`, `ship.rs` and `main.rs` it reads. -/

/-- The fields of `actor.rs::Monster` read by `fov.rs` (via
`NPCTracker::tile_info`): `symbol` and `color`. -/
structure Monster where
  symbol : Char
  color : Color
deriving DecidableEq, Repr

/-- `actor.rs::NPCTracker`: monsters by id plus a coordinate index. -/
structure NPCTracker where
  npc_list : List (Nat × Monster)
  loc_index : List (Coord × Nat)
deriving DecidableEq, Repr

/-- `NPCTracker::is_npc_at`. -/
def is_npc_at (t : NPCTracker) (row col : Nat) : Bool :=
  t.loc_index.any (fun p => p.1 = (row, col))

/-- `NPCTracker::tile_info`; the source `unwrap`s both lookups, so a missing
entry is a panic at the caller. -/
def tile_info (t : NPCTracker) (row col : Nat) : Option (Char × Color) :=
  match (t.loc_index.find? (fun p => p.1 = (row, col))).map (·.2) with
  | none => none
  | some id =>
    (t.npc_list.find? (fun p => p.1 = id)).map (fun p => (p.2.symbol, p.2.color))

/-- The fields of `items.rs::Item` read by `fov.rs`: `hidden` plus the
`get_tile_info` projection `(color, symbol)`. -/
structure Item where
  hidden : Bool
  color : Color
  symbol : Char
deriving DecidableEq, Repr

/-- `items.rs::ItemsTable`: piles of items by coordinate. -/
structure ItemsTable where
  table : List (Coord × List Item)
deriving DecidableEq, Repr

/-- `ItemsTable::count_visible`. -/
def count_visible (t : ItemsTable) (loc : Coord) : Nat :=
  ((t.table.find? (fun p => p.1 = loc)).map
    (fun p => (p.2.filter (fun i => ¬ i.hidden)).length)).getD 0

/-- `ItemsTable::count_at`; the source truncates the count with `as u8`. -/
def count_at (t : ItemsTable) (r c : Nat) : Nat :=
  (if ¬ t.table.any (fun p => p.1 = (r, c)) then 0 else count_visible t (r, c)) % 256

/-- `ItemsTable::peek_top` (`unwrap`s are the caller's panic). -/
def peek_top (t : ItemsTable) (r c : Nat) : Option Item :=
  match t.table.find? (fun p => p.1 = (r, c)) with
  | none => none
  | some p => p.2.head?

/-- The field of `weather.rs::Weather` read by `fov.rs`: the cloud set. -/
structure Weather where
  clouds : List Coord
deriving DecidableEq, Repr

/-- The fields of `ship.rs::Ship` read by `fov.rs::add_ship`. -/
structure Ship where
  row : Nat
  col : Nat
  bow_row : Nat
  bow_col : Nat
  aft_row : Nat
  aft_col : Nat
  bow_ch : Char
  aft_ch : Char
  deck_ch : Char
deriving DecidableEq, Repr

/-- The fields of `actor.rs::Player` read by `fov.rs`: position, `on_ship`,
and the result of `inventory.active_light_source()`. -/
structure PlayerSt where
  row : Nat
  col : Nat
  on_ship : Bool
  light_source : Bool
deriving DecidableEq, Repr

/-- The fields of `main.rs::GameState` read by `fov.rs`.  The source keys
`map`, `npcs` and `weather` by `map_id`; `calc_v_matrix` only ever reads the
entry at the current `map_id`, which the embedding stores directly. -/
structure GameState where
  map : GMap
  npcs : NPCTracker
  weather : Weather
  world_seen : List Coord
  vision_radius : Nat
  player : PlayerSt
deriving DecidableEq, Repr

/-- `HashSet::insert` on a list-modelled set. -/
def insertSet {α : Type} [DecidableEq α] (s : List α) (x : α) : List α :=
  if s.contains x then s else s ++ [x]

/-- Checked write `l[i] = x` for a `usize` index (panics out of range). -/
def setAtN {α : Type} (l : List α) (i : Nat) (x : α) : Res (List α) :=
  if i < l.length then .ok (l.set i x) else .error .panicked

/-- Checked write `l[i as usize] = x` for an `i32` index: a negative index
wraps to a huge `usize` and panics just like an overlarge one. -/
def setAtI {α : Type} (l : List α) (i : Int) (x : α) : Res (List α) :=
  if 0 ≤ i then setAtN l i.toNat x else .error .panicked

/-- `fov.rs::radius_3` (verbatim, duplicates included). -/
def radius_3 : List (Int × Int) :=
  [(3, 0), (3, 0), (-3, 0), (-3, 0), (0, 3), (0, -3), (0, 3), (0, -3), (3, 1), (3, -1),
   (-3, 1), (-3, -1), (1, 3), (1, -3), (-1, 3), (-1, -3), (2, 2), (2, -2), (-2, 2), (-2, -2),
   (2, 2), (2, -2), (-2, 2), (-2, -2)]

/-- `fov.rs::radius_5` (verbatim). -/
def radius_5 : List (Int × Int) :=
  [(5, 0), (5, 0), (-5, 0), (-5, 0), (0, 5), (0, -5), (0, 5), (0, -5), (5, 1), (5, -1),
   (-5, 1), (-5, -1), (1, 5), (1, -5), (-1, 5), (-1, -5), (5, 2), (5, -2), (-5, 2), (-5, -2), (2, 5),
   (2, -5), (-2, 5), (-2, -5), (4, 3), (4, -3), (-4, 3), (-4, -3), (3, 4), (3, -4), (-3, 4), (-3, -4),
   (-3, -3), (3, 3), (-3, 3), (3, -3)]

/-- `fov.rs::radius_7` (verbatim). -/
def radius_7 : List (Int × Int) :=
  [(7, 0), (7, 0), (-7, 0), (-7, 0), (0, 7), (0, -7), (0, 7), (0, -7), (7, 1), (7, -1), (-7, 1),
   (-7, -1), (1, 7), (1, -7), (-1, 7), (-1, -7), (7, 2), (7, -2), (-7, 2), (-7, -2), (2, 7), (2, -7),
   (-2, 7), (-2, -7), (6, 3), (6, -3), (-6, 3), (-6, -3), (3, 6), (3, -6), (-3, 6), (-3, -6), (6, 4),
   (6, -4), (-6, 4), (-6, -4), (4, 6), (4, -6), (-4, 6), (-4, -6), (5, 5), (5, -5), (-5, 5), (-5, -5),
   (5, 5), (5, -5), (-5, 5), (-5, -5), (-4, -5), (4, 5), (-4, 5), (4, -5), (-5, -4), (5, 4), (-5, 4),
   (5, -4)]

/-- `fov.rs::radius_9` (verbatim). -/
def radius_9 : List (Int × Int) :=
  [(9, 0), (9, 0), (-9, 0), (-9, 0), (0, 9), (0, -9), (0, 9), (0, -9), (9, 1), (9, -1), (-9, 1),
   (-9, -1), (1, 9), (1, -9), (-1, 9), (-1, -9), (9, 2), (9, -2), (-9, 2), (-9, -2), (2, 9), (2, -9),
   (-2, 9), (-2, -9), (9, 3), (9, -3), (-9, 3), (-9, -3), (3, 9), (3, -9), (-3, 9), (-3, -9), (8, 4),
   (8, -4), (-8, 4), (-8, -4), (4, 8), (4, -8), (-4, 8), (-4, -8), (8, 5), (8, -5), (-8, 5), (-8, -5),
   (5, 8), (5, -8), (-5, 8), (-5, -8), (7, 6), (7, -6), (-7, 6), (-7, -6), (6, 7), (6, -7), (-6, 7),
   (-6, -7), (-6, -6), (6, 6), (6, -6), (-6, 6), (-7, -5), (7, 5), (-7, 5), (7, -5), (-5, -7), (5, 7),
   (-5, 7), (5, -7)]

/-- `[lo, hi)` as a list of `Int`s (Rust's `lo..hi` range). -/
def intRange (lo hi : Int) : List Int :=
  (List.range (hi - lo).toNat).map (fun i => lo + i)

/-- `main.rs`: `const FOV_WIDTH: usize = 41;` -/
def FOV_WIDTH : Nat := 41

/-- `main.rs`: `const FOV_HEIGHT: usize = 21;` -/
def FOV_HEIGHT : Nat := 21

/-- `fov.rs::radius_full`: the boundary of the fixed 41x21 viewport
(built from the `FOV_WIDTH`/`FOV_HEIGHT` globals, not the call's
dimensions). -/
def radius_full : List (Int × Int) :=
  let width_radius : Int := (FOV_WIDTH / 2 : Nat)
  let height_radius : Int := (FOV_HEIGHT / 2 : Nat)
  ((intRange (-width_radius) width_radius).flatMap
    (fun col => [(-height_radius, col), (height_radius, col)]))
  ++ ((intRange (-height_radius) height_radius).flatMap
    (fun row => [(row, -width_radius), (row, width_radius)]))
  ++ [(height_radius, width_radius)]

/-- `util.rs::bresenham_circle` (fuel bounds the `while y <= x` loop). -/
def bresenham_circle_loop (rc cc : Int) :
    Nat → Int → Int → Int → Int → Int → List (Int × Int) → List (Int × Int)
  | 0, _, _, _, _, _, pts => pts
  | fuel + 1, x, y, error, sqrx_inc, sqry_inc, pts =>
    if y ≤ x then
      let pts := pts ++ [(rc + y, cc + x), (rc + y, cc - x), (rc - y, cc + x), (rc - y, cc - x),
        (rc + x, cc + y), (rc + x, cc - y), (rc - x, cc + y), (rc - x, cc - y)]
      let y := y + 1
      let error := error + sqry_inc
      let sqry_inc := sqry_inc + 2
      if error > x then
        bresenham_circle_loop rc cc fuel (x - 1) y (error - sqrx_inc) (sqrx_inc - 2) sqry_inc pts
      else
        bresenham_circle_loop rc cc fuel x y error sqrx_inc sqry_inc pts
    else pts

/-- `util.rs::bresenham_circle`. -/
def bresenham_circle (rc cc radius : Int) : List (Int × Int) :=
  bresenham_circle_loop rc cc (2 * radius + 4).toNat radius 0 0 (2 * radius - 1) 1 []

/-- `fov.rs::calc_actual_tile`.  `no_fog` holds `Int` pairs: the source
stores `usize` pairs produced by possibly-wrapping casts; wrapped (huge)
entries equal no in-bounds cell, exactly as negative `Int` entries equal no
`Nat`-cast cell here. -/
def calc_actual_tile (r c : Nat) (map : GMap) (npcs : NPCTracker)
    (items : ItemsTable) (weather : Weather) (no_fog : List (Int × Int)) : Res Tile :=
  if weather.clouds.contains (r, c) ∧ ¬ no_fog.contains ((r : Int), (c : Int)) then
    .ok .Fog
  else if is_npc_at npcs r c then
    match tile_info npcs r c with
    | none => .error .panicked
    | some ti => .ok (.Creature ti.2 ti.1)
  else if 0 < count_at items r c then
    match peek_top items r c with
    | none => .error .panicked
    | some i =>
      if ¬ i.hidden then .ok (.Thing i.color i.symbol)
      else .ok (tileAt map r c)
  else
    .ok (tileAt map r c)

/-- The `delta_c <= delta_r` loop of `fov.rs::mark_visible` (lines 163-202).
State: current `r`, `c`, `error`, `r_end`, the visibility buffer and
`world_seen`. -/
def markVisibleRBody (map : GMap) (clouds : List Coord) (no_fog : List (Int × Int))
    (width : Nat) (r1 c1 : Int) (r_step c_step delta_r delta_c criterion : Int)
    (recur : Int → Int → Int → Int → List Bool → List Coord → Res (List Bool × List Coord))
    (r c error r_end : Int) (vbuf : List Bool) (seen : List Coord) :
    Res (List Bool × List Coord) :=
  if (r_step > 0 ∧ r ≥ r_end + r_step) ∨ (r_step < 0 ∧ r ≤ r_end + r_step) then
    .ok (vbuf, seen)
  else if ¬ in_bounds map r c then .ok (vbuf, seen)
  else
    let vm_r := r - r1 + 10
    let vm_c := c - c1 + 20
    match setAtI vbuf (vm_r * (width : Int) + vm_c) true with
    | .error e => .error e
    | .ok vbuf =>
      let seen := insertSet seen (r.toNat, c.toNat)
      if ¬ is_clear (tileAt map r.toNat c.toNat) then .ok (vbuf, seen)
      else if clouds.contains (r.toNat, c.toNat) ∧ ¬ no_fog.contains (r, c) then
        .ok (vbuf, seen)
      else
        let r_end := if tileAt map r.toNat c.toNat = Tile.Tree ∧ ¬ (r = r1 ∧ c = c1) then
            (if r_step > 0 then r_end - 3 else r_end + 3)
          else r_end
        let r := r + r_step
        let error := error + delta_c
        if error > criterion then
          recur r (c + c_step) (error - delta_r) r_end vbuf seen
        else
          recur r c error r_end vbuf seen

/-- The `delta_c <= delta_r` loop of `fov.rs::mark_visible`
(lines 163-202). -/
def markVisibleR (map : GMap) (clouds : List Coord) (no_fog : List (Int × Int))
    (width : Nat) (r1 c1 : Int) (r_step c_step delta_r delta_c criterion : Int) :
    Nat → Int → Int → Int → Int → List Bool → List Coord → Res (List Bool × List Coord)
  | 0, _, _, _, _, _, _ => .error .fuelOut
  | fuel + 1, r, c, error, r_end, vbuf, seen =>
    markVisibleRBody map clouds no_fog width r1 c1 r_step c_step delta_r delta_c criterion
      (markVisibleR map clouds no_fog width r1 c1 r_step c_step delta_r delta_c criterion fuel)
      r c error r_end vbuf seen

def markVisibleCBody (map : GMap) (clouds : List Coord) (no_fog : List (Int × Int))
    (width : Nat) (r1 c1 : Int) (r_step c_step delta_r delta_c criterion : Int)
    (recur : Int → Int → Int → Int → List Bool → List Coord → Res (List Bool × List Coord))
    (r c error c_end : Int) (vbuf : List Bool) (seen : List Coord) :
    Res (List Bool × List Coord) :=
  if (c_step > 0 ∧ c ≥ c_end + c_step) ∨ (c_step < 0 ∧ c ≤ c_end + c_step) then
    .ok (vbuf, seen)
  else if ¬ in_bounds map r c then .ok (vbuf, seen)
  else
    let vm_r := r - r1 + 10
    let vm_c := c - c1 + 20
    match setAtI vbuf (vm_r * (width : Int) + vm_c) true with
    | .error e => .error e
    | .ok vbuf =>
      let seen := insertSet seen (r.toNat, c.toNat)
      if ¬ is_clear (tileAt map r.toNat c.toNat) then .ok (vbuf, seen)
      else if clouds.contains (r.toNat, c.toNat) ∧ ¬ no_fog.contains (r, c) then
        .ok (vbuf, seen)
      else
        let c_end := if tileAt map r.toNat c.toNat = Tile.Tree ∧ ¬ (r = r1 ∧ c = c1) then
            (if c_step > 0 then c_end - 3 else c_end + 3)
          else c_end
        let c := c + c_step
        let error := error + delta_r
        if error > criterion then
          recur (r + r_step) c (error - delta_c) c_end vbuf seen
        else
          recur r c error c_end vbuf seen

/-- The `delta_c > delta_r` loop of `fov.rs::mark_visible` (lines 205-243). -/
def markVisibleC (map : GMap) (clouds : List Coord) (no_fog : List (Int × Int))
    (width : Nat) (r1 c1 : Int) (r_step c_step delta_r delta_c criterion : Int) :
    Nat → Int → Int → Int → Int → List Bool → List Coord → Res (List Bool × List Coord)
  | 0, _, _, _, _, _, _ => .error .fuelOut
  | fuel + 1, r, c, error, c_end, vbuf, seen =>
    markVisibleCBody map clouds no_fog width r1 c1 r_step c_step delta_r delta_c criterion
      (markVisibleC map clouds no_fog width r1 c1 r_step c_step delta_r delta_c criterion fuel)
      r c error c_end vbuf seen

/-- `fov.rs::mark_visible` (lines 133-245): Bresenham set-up, then one of
the two loops.  Reads the grid and the cloud set, writes the visibility
buffer and `world_seen`. -/
def mark_visible (map : GMap) (clouds : List Coord) (r1 c1 r2 c2 : Int)
    (vbuf : List Bool) (seen : List Coord) (width : Nat)
    (no_fog : List (Int × Int)) (fuel : Nat) : Res (List Bool × List Coord) :=
  let dr := r2 - r1
  let r_step : Int := if dr < 0 then -1 else 1
  let delta_r := if dr < 0 then -dr else dr
  let dc := c2 - c1
  let c_step : Int := if dc < 0 then -1 else 1
  let delta_c := if dc < 0 then -dc else dc
  if delta_c ≤ delta_r then
    markVisibleR map clouds no_fog width r1 c1 r_step c_step delta_r delta_c (delta_r / 2)
      fuel r1 c1 0 r2 vbuf seen
  else
    markVisibleC map clouds no_fog width r1 c1 r_step c_step delta_r delta_c (delta_c / 2)
      fuel r1 c1 0 c2 vbuf seen

/-- The guarded bow/aft stamping of `fov.rs::add_ship` (lines 269-280):
write a ship-part tile at the `i32` index `i` only when `i > 0 && i < len`
and the present tile is neither `Blank` nor a `Creature`.  (The source
reads `v_len` once before both stamps; `List.set` preserves the length, so
reading it at each stamp is the same.) -/
def shipStamp (vbuf : List Tile) (i : Int) (ch : Char) : List Tile :=
  if i > 0 ∧ i < (vbuf.length : Int) then
    match vbuf.getD i.toNat .Blank with
    | .Blank | .Creature _ _ => vbuf
    | _ => vbuf.set i.toNat (.ShipPart ch)
  else vbuf

/-- `fov.rs::add_ship` (lines 247-281): stamp the deck at the given buffer
cell unconditionally, then the bow and aft cells via `shipStamp`. -/
def add_ship (vbuf : List Tile) (row col : Nat) (ship : Ship) (width : Nat) :
    Res (List Tile) :=
  match setAtN vbuf (row * width + col) (.ShipPart ship.deck_ch) with
  | .error e => .error e
  | .ok vbuf =>
    let delta_row_bow : Int := (ship.bow_row : Int) - ship.row
    let delta_col_bow : Int := (ship.bow_col : Int) - ship.col
    let delta_row_aft : Int := (ship.aft_row : Int) - ship.row
    let delta_col_aft : Int := (ship.aft_col : Int) - ship.col
    let bow_i := (delta_row_bow + row) * width + (delta_col_bow + col)
    let aft_i := (delta_row_aft + row) * width + (delta_col_aft + col)
    .ok (shipStamp (shipStamp vbuf bow_i ship.bow_ch) aft_i ship.aft_ch)

/-- `fov.rs::add_ships_to_v_matrix` (lines 284-305). -/
def add_ships_to_v_matrix (map : GMap) (vbuf : List Tile)
    (ships : List (Coord × Ship)) (player_row player_col : Nat)
    (height width : Nat) : Res (List Tile) :=
  let half_height : Int := (height / 2 : Nat)
  let half_width : Int := (width / 2 : Nat)
  (intRange (-half_height) half_height).foldlM (fun vbuf r =>
    (intRange (-half_width) half_width).foldlM (fun vbuf c =>
      if ¬ in_bounds map (r + player_row) (c + player_col) then .ok vbuf
      else
        let loc : Coord := ((r + player_row).toNat, (c + player_col).toNat)
        let i := ((r + half_height) * width + c + half_width).toNat
        match vbuf.get? i with
        | none => .error .panicked
        | some t =>
          if t ≠ .Blank ∧ ships.any (fun p => p.1 = loc) then
            match (ships.find? (fun p => p.1 = loc)).map (·.2) with
            | none => .error .panicked
            | some ship =>
              add_ship vbuf (r + half_height).toNat (c + half_width).toNat ship width
          else .ok vbuf) vbuf) vbuf

/-- The final overwrite of `fov.rs::calc_v_matrix` (lines 386-394): the
viewer's own (centre) cell is stamped with a `Player` tile. -/
def stampPlayer (map : GMap) (ships : List (Coord × Ship)) (player : PlayerSt)
    (vbuf : List Tile) (fov_center_i : Nat) : Res (List Tile) :=
  if player.on_ship then setAtN vbuf fov_center_i (.Player BROWN)
  else
    match (map.get? player.row).bind (fun row => row.get? player.col) with
    | none => .error .panicked
    | some t =>
      if t = .DeepWater ∧ ¬ ships.any (fun p => p.1 = (player.row, player.col)) then
        setAtN vbuf fov_center_i (.Player LIGHT_BLUE)
      else
        setAtN vbuf fov_center_i (.Player WHITE)

/-- The second pass of `calc_v_matrix` (lines 363-381): resolve every
visible viewport cell to a displayable tile. -/
def resolvePass (state : GameState) (items : ItemsTable)
    (no_fog : List (Int × Int)) (visible : List Bool) (height width : Nat) :
    Res (List Tile) :=
  let pr : Int := state.player.row
  let pc : Int := state.player.col
  let fov_center_r := height / 2
  let fov_center_c := width / 2
  (List.range height).foldlM (fun vbuf r =>
    (List.range width).foldlM (fun vbuf c =>
      let j := r * width + c
      if visible.getD j false then
        let row := pr - fov_center_r + r
        let col := pc - fov_center_c + c
        if in_bounds state.map row col then
          match calc_actual_tile row.toNat col.toNat state.map state.npcs items
              state.weather no_fog with
          | .error e => .error e
          | .ok t => .ok (vbuf.set j t)
        else .ok vbuf
      else .ok vbuf) vbuf)
    (List.replicate (height * width) Tile.Blank)

/-- The part of `calc_v_matrix` after the beamcasting loop: resolve tiles
(lines 363-381), overlay ships (line 383), stamp the player (lines
386-394).  It reads no `world_seen`. -/
def calcRest (state : GameState) (items : ItemsTable)
    (ships : List (Coord × Ship)) (height width : Nat)
    (no_fog : List (Int × Int)) (visible : List Bool) : Res (List Tile) :=
  match resolvePass state items no_fog visible height width with
  | .error e => .error e
  | .ok v_matrix =>
    match add_ships_to_v_matrix state.map v_matrix ships state.player.row
        state.player.col height width with
    | .error e => .error e
    | .ok v_matrix =>
      stampPlayer state.map ships state.player v_matrix
        (height / 2 * width + width / 2)

/-- The `no_fog` halo of `calc_v_matrix` (lines 329-344): the player's
eight neighbours and own cell, extended by a radius-2 Bresenham circle
when a light source is active. -/
def calcNoFog (player : PlayerSt) : List (Int × Int) :=
  let prI : Int := player.row
  let pcI : Int := player.col
  let no_fog : List (Int × Int) :=
    [(prI - 1, pcI - 1), (prI - 1, pcI), (prI - 1, pcI + 1),
     (prI, pcI - 1), (prI, pcI), (prI, pcI + 1),
     (prI + 1, pcI - 1), (prI + 1, pcI), (prI + 1, pcI + 1)].foldl insertSet []
  if player.light_source then
    (bresenham_circle prI pcI 2).foldl insertSet no_fog
  else no_fog

/-- The radius-profile selection of `calc_v_matrix` (lines 317-327). -/
def calcPerimeter (vision_radius : Nat) : List (Int × Int) :=
  if vision_radius = 3 then radius_3
  else if vision_radius = 5 then radius_5
  else if vision_radius = 7 then radius_7
  else if vision_radius = 9 then radius_9
  else radius_full

/-- `fov.rs::calc_v_matrix` (lines 307-397).  Returns the render buffer and
the final `world_seen` (the only `GameState` field the source mutates). -/
def calc_v_matrix (state : GameState) (items : ItemsTable)
    (ships : List (Coord × Ship)) (height width : Nat) (fuel : Nat) :
    Res (List Tile × List Coord) :=
  let size := height * width
  let visible := List.replicate size false
  let no_fog := calcNoFog state.player
  match (calcPerimeter state.vision_radius).foldlM
      (fun (acc : List Bool × List Coord) loc =>
        mark_visible state.map state.weather.clouds (state.player.row : Int)
          (state.player.col : Int) ((state.player.row : Int) + loc.1)
          ((state.player.col : Int) + loc.2) acc.1 acc.2 width no_fog fuel)
      (visible, state.world_seen) with
  | .error e => .error e
  | .ok (visible, seen) =>
    match calcRest state items ships height width no_fog visible with
    | .error e => .error e
    | .ok v_matrix => .ok (v_matrix, seen)

/-! ## Concrete instances used by the claim theorems -/

/-- Shorthand: a passable water tile. -/
def W : Tile := Tile.Water

/-- Shorthand: an impassable wall tile. -/
def X : Tile := Tile.Wall

/-- The water-walker passability set used by the concrete instances. -/
def pw : TileSet := [Tile.Water]

/-- A 1x3 all-water corridor. -/
def m2 : GMap := [[W, W, W]]

/-- A 6x4 grid on which `astar`'s cheaper-path update fires on a node that
ends up on the goal's parent chain; start `(0,1)`, goal `(5,0)`:
rows `.S#. / .#.# / #..# / .##. / ##.. / G..#`. -/
def m3 : GMap :=
  [[W, W, X, W],
   [W, X, W, X],
   [X, W, W, X],
   [W, X, X, W],
   [X, X, W, W],
   [W, W, W, X]]

/-- The node table of `astar` on `m3` at the moment the goal `(5,0)` is
popped: the entry at `(2,2)` has itself as parent (set by the cheaper-path
update), and the goal's parent chain `(5,0) → (5,1) → (4,2) → (3,3) → (2,2)`
runs into it. -/
def c3Nodes : NodeMap :=
  [((5, 0), ⟨(5, 0), (5, 1), 6, 6, 0⟩),
   ((5, 2), ⟨(5, 2), (4, 2), 7, 5, 2⟩),
   ((5, 1), ⟨(5, 1), (4, 2), 6, 5, 1⟩),
   ((4, 3), ⟨(4, 3), (3, 3), 8, 4, 4⟩),
   ((4, 2), ⟨(4, 2), (3, 3), 7, 4, 3⟩),
   ((3, 3), ⟨(3, 3), (2, 2), 8, 3, 5⟩),
   ((0, 3), ⟨(0, 3), (1, 2), 10, 2, 8⟩),
   ((3, 0), ⟨(3, 0), (2, 1), 5, 3, 2⟩),
   ((2, 2), ⟨(2, 2), (2, 2), 8, 2, 5⟩),
   ((2, 1), ⟨(2, 1), (1, 0), 6, 2, 4⟩),
   ((1, 2), ⟨(1, 2), (0, 1), 7, 1, 6⟩),
   ((1, 0), ⟨(1, 0), (0, 1), 5, 1, 4⟩),
   ((0, 0), ⟨(0, 0), (0, 1), 6, 1, 5⟩),
   ((0, 1), ⟨(0, 1), (0, 1), 0, 0, 0⟩)]

/-- A 3x3 grid whose centre `(1,1)` is water walled in on all eight sides;
the goal cell `(0,0)` is grass (impassable for a water walker). -/
def m4 : GMap :=
  [[Tile.Grass, X, X],
   [X, W, X],
   [X, X, X]]

/-- A 21x21 grid: a diagonal water corridor `(i,i)` for `i ≤ 19`, walls
elsewhere; the goal `(20,20)` is a wall. -/
def m5 : GMap :=
  (List.range 21).map (fun r => (List.range 21).map
    (fun c => if r = c ∧ r ≤ 19 then W else X))

/-- A 1x2 grid `[Wall, Water]`: the start cell is impassable. -/
def m7 : GMap := [[X, W]]

/-- A tracker with one tracked entity (a shark) standing on `(0,1)`. -/
def t0 : NPCTracker := ⟨[(0, ⟨'s', WHITE⟩)], [((0, 1), 0)]⟩

/-- A 1x1 water game state: player at `(0,0)`, night vision radius 3,
no clouds, no tracked entities, nothing seen yet.  (The beam loops write
the viewport cell `(10, 20)` regardless of the viewport size, so a witness
viewport only needs `10 * width + 20 < height * width`.) -/
def s0 : GameState :=
  { map := [[Tile.Water]],
    npcs := ⟨[], []⟩,
    weather := ⟨[]⟩,
    world_seen := [],
    vision_radius := 3,
    player := ⟨0, 0, false, false⟩ }

/-- An empty items table. -/
def items0 : ItemsTable := ⟨[]⟩

/-- A 2x3 all-water grid for the ship-overlay instance. -/
def m9 : GMap := [[W, W, W], [W, W, W]]

/-- A vessel centred at `(1,1)` heading north: bow at `(0,1)`, aft at
`(2,1)`. -/
def ship0 : Ship := ⟨1, 1, 0, 1, 2, 1, 'B', 'A', 'D'⟩

/-- The ships table holding `ship0` at its centre cell. -/
def ships9 : List (Coord × Ship) := [((1, 1), ship0)]

/-- A 2x3 render buffer in which cell 4 (the vessel's centre) has already
been resolved to a creature and cell 1 (under the bow) to terrain. -/
def v9 : List Tile :=
  [Tile.Blank, W, Tile.Blank, Tile.Blank, Tile.Creature WHITE 'g', Tile.Blank]

/-! ## Helper lemmas -/

/-- 8-adjacency as the spec defines it: each axis differs by at most 1. -/
def adj8 (a b : Coord) : Prop :=
  Nat.dist a.1 b.1 ≤ 1 ∧ Nat.dist a.2 b.2 ≤ 1

instance (a b : Coord) : Decidable (adj8 a b) := by
  unfold adj8
  infer_instance

/-- The node-table invariant of `astar`: every entry's parent is 8-adjacent
to it (the cheaper-path update makes a node its own parent, distance 0),
and every key other than the start cell has passable terrain. -/
def NInv (map : GMap) (pass : TileSet) (sr sc : Nat) (nodes : NodeMap) : Prop :=
  ∀ p ∈ nodes, adj8 p.1 p.2.parent ∧
    (p.1 ≠ (sr, sc) → passable_by_me (tileAt map p.1.1 p.1.2) pass = true)

/-- The flood-fill loop invariant: every collected heap item records the
truncated Euclidean distance of its cell to the goal, and every collected
or queued cell is the start or within Manhattan distance 30 of it. -/
def FloodInv (sr sc er ec : Nat) (st : FloodSt) : Prop :=
  (∀ it ∈ st.sqs, it.f = -(cartesian_d er ec it.loc.1 it.loc.2 : Int) ∧
    (it.loc = (sr, sc) ∨ manhattan_d sr sc it.loc.1 it.loc.2 ≤ 30)) ∧
  (∀ x ∈ st.queue, x = (sr, sc) ∨ manhattan_d sr sc x.1 x.2 ≤ 30)

/-! ## Shared lemmas about the search structures -/

/-- A successful node lookup is membership. -/
theorem findNode_mem (nodes : NodeMap) (k : Coord) (n : ASNode)
    (h : findNode nodes k = some n) : (k, n) ∈ nodes := by
  unfold findNode at h
  cases hf : nodes.find? (fun p => p.1 = k) with
  | none => rw [hf] at h; simp at h
  | some q =>
    rw [hf] at h
    simp at h
    have hq := List.find?_some hf
    have hmem := List.mem_of_find?_eq_some hf
    simp at hq
    rw [← h, ← hq]
    exact hmem

/-- `adj8` is symmetric. -/
theorem adj8_symm {a b : Coord} (h : adj8 a b) : adj8 b a := by
  unfold adj8 at h ⊢
  rw [Nat.dist_comm a.1, Nat.dist_comm a.2] at h
  exact h

/-- One neighbour step of `astar` preserves the node-table invariant. -/
theorem astarNeighbor_inv (map : GMap) (pass : TileSet) (sr sc er ec : Nat)
    (cur : Coord) (visited : List Coord) (nodes : NodeMap)
    (openq : List ASQueueItem) (off : Int × Int)
    (hoff : off.1.natAbs ≤ 1 ∧ off.2.natAbs ≤ 1)
    (hinv : NInv map pass sr sc nodes) (nodes' : NodeMap) (openq' : List ASQueueItem)
    (h : astarNeighbor map pass er ec cur visited (nodes, openq) off = .ok (nodes', openq')) :
    NInv map pass sr sc nodes' := by
  unfold astarNeighbor at h
  dsimp only at h
  split at h
  · -- out of bounds: state unchanged
    injection h with h
    injection h with h1 _
    rw [← h1]; exact hinv
  · split at h
    · -- impassable: state unchanged
      injection h with h
      injection h with h1 _
      rw [← h1]; exact hinv
    · -- in bounds and passable
      rename_i hb hp
      rw [not_not] at hb hp
      split at h
      · exact absurd h (by simp)
      · rename_i curN _
        split at h
        · -- fresh insertion with parent `cur`
          injection h with h
          injection h with h1 _
          rw [← h1]
          intro p hmem
          rcases List.mem_cons.mp hmem with heq | hold
          · subst heq
            refine ⟨?_, fun _ => hp⟩
            have hb' := hb
            unfold in_bounds at hb'
            simp only [Bool.and_eq_true, decide_eq_true_eq] at hb'
            obtain ⟨⟨⟨hr0, hc0⟩, _⟩, _⟩ := hb'
            have h1 : off.1.natAbs ≤ 1 := hoff.1
            have h2 : off.2.natAbs ≤ 1 := hoff.2
            constructor
            · simp only [Nat.dist]
              omega
            · simp only [Nat.dist]
              omega
          · exact hinv p hold
        · split at h
          · -- `nodes[&next.loc]` missing: a panic, not an `ok` result
            exact absurd h (by simp)
          · split at h
            · -- cheaper-path update: parent becomes the cell itself
              injection h with h
              injection h with h1 _
              rw [← h1]
              intro p hmem
              unfold relaxNode at hmem
              rcases List.mem_map.mp hmem with ⟨q, hq, hpq⟩
              by_cases hk : q.1 = (((cur.1 : Int) + off.1).toNat, ((cur.2 : Int) + off.2).toNat)
              · rw [if_pos hk] at hpq
                rw [← hpq]
                refine ⟨?_, (hinv q hq).2⟩
                show adj8 q.1 _
                rw [hk]
                exact ⟨by simp [Nat.dist_self], by simp [Nat.dist_self]⟩
              · rw [if_neg hk] at hpq
                rw [← hpq]
                exact hinv q hq
            · -- no update
              injection h with h
              injection h with h1 _
              rw [← h1]
              exact hinv



/-- Folding the neighbour step over small offsets preserves the invariant. -/
theorem astarFold_inv (map : GMap) (pass : TileSet) (sr sc er ec : Nat)
    (cur : Coord) (visited : List Coord) :
    ∀ (l : List (Int × Int)) (acc : NodeMap × List ASQueueItem)
      (nodes' : NodeMap) (openq' : List ASQueueItem),
      (∀ off ∈ l, off.1.natAbs ≤ 1 ∧ off.2.natAbs ≤ 1) →
      NInv map pass sr sc acc.1 →
      l.foldlM (astarNeighbor map pass er ec cur visited) acc = .ok (nodes', openq') →
      NInv map pass sr sc nodes' := by
  intro l
  induction l with
  | nil =>
    intro acc nodes' openq' _ hinv h
    rw [List.foldlM_nil] at h
    injection h with h
    rw [h] at hinv
    exact hinv
  | cons off rest ih =>
    intro acc nodes' openq' hoffs hinv h
    rw [List.foldlM_cons] at h
    cases hstep : astarNeighbor map pass er ec cur visited acc off with
    | error e =>
      rw [hstep] at h
      exact Except.noConfusion
        (h : (Except.error e : Res (NodeMap × List ASQueueItem)) = .ok (nodes', openq'))
    | ok acc1 =>
      rw [hstep] at h
      have h' : rest.foldlM (astarNeighbor map pass er ec cur visited) acc1
          = .ok (nodes', openq') := h
      obtain ⟨an, aq⟩ := acc
      obtain ⟨n1, q1⟩ := acc1
      have hinv1 : NInv map pass sr sc n1 :=
        astarNeighbor_inv map pass sr sc er ec cur visited an aq off
          (hoffs off (List.mem_cons_self off rest)) hinv n1 q1 hstep
      exact ih ⟨n1, q1⟩ nodes' openq'
        (fun o ho => hoffs o (List.mem_cons_of_mem off ho)) hinv1 h'

/-- Structure of a successful backtrace: the result is start-to-goal, its
links follow parent pointers (hence are 8-adjacent under the invariant),
and every traced cell other than the final start is a node-table key. -/
theorem trace_ok (nodes : NodeMap) (sr sc : Nat)
    (hadj : ∀ p ∈ nodes, adj8 p.1 p.2.parent) :
    ∀ fuel cr cc path l,
      get_path_from_nodes nodes sr sc fuel cr cc path = .ok l →
      ∃ mids : List Coord,
        l = (path ++ (mids ++ [(sr, sc)])).reverse ∧
        (mids = [] → cr = sr ∧ cc = sc) ∧
        (∀ x, mids.head? = some x → x = (cr, cc)) ∧
        List.Chain' adj8 (mids ++ [(sr, sc)]) ∧
        (∀ x ∈ mids, ∃ nd, (x, nd) ∈ nodes) := by
  intro fuel
  induction fuel with
  | zero => intro cr cc path l h; exact absurd h (by simp [get_path_from_nodes])
  | succ k ih =>
    intro cr cc path l h
    have h' : tracePathBody nodes sr sc (get_path_from_nodes nodes sr sc k) cr cc path
        = .ok l := h
    unfold tracePathBody at h'
    split at h'
    · rename_i hne
      split at h'
      · exact absurd h' (by simp)
      · rename_i n heq
        obtain ⟨mids', h1, h2, h3, h4, h5⟩ := ih n.parent.1 n.parent.2 (path ++ [(cr, cc)]) l h'
        have hmem := findNode_mem nodes (cr, cc) n heq
        have hadjn : adj8 (cr, cc) n.parent := hadj ((cr, cc), n) hmem
        refine ⟨(cr, cc) :: mids', ?_, ?_, ?_, ?_, ?_⟩
        · rw [h1]
          simp [List.append_assoc]
        · intro habs; exact absurd habs (by simp)
        · intro x hx
          simp only [List.head?_cons, Option.some.injEq] at hx
          exact hx.symm
        · rw [List.cons_append]
          rw [List.chain'_cons']
          refine ⟨?_, h4⟩
          intro b hb
          cases hm : mids' with
          | nil =>
            subst hm
            simp only [List.nil_append, List.head?_cons, Option.mem_def,
              Option.some.injEq] at hb
            obtain ⟨hs1, hs2⟩ := h2 rfl
            have : n.parent = (sr, sc) := by
              rw [← hs1, ← hs2]
            rw [← hb, ← this]
            exact hadjn
          | cons y ys =>
            subst hm
            simp only [List.cons_append, List.head?_cons, Option.mem_def,
              Option.some.injEq] at hb
            have hy : y = (n.parent.1, n.parent.2) := h3 y rfl
            rw [← hb, hy]
            have : (n.parent.1, n.parent.2) = n.parent := rfl
            rw [this]
            exact hadjn
        · intro x hx
          rcases List.mem_cons.mp hx with heq' | hold
          · exact ⟨n, heq' ▸ hmem⟩
          · exact h5 x hold
    · rename_i hne
      push_neg at hne
      obtain ⟨he1, he2⟩ := hne
      injection h' with h'
      refine ⟨[], ?_, fun _ => ⟨he1, he2⟩, ?_, ?_, ?_⟩
      · rw [← h']
        simp
      · intro x hx; simp at hx
      · simp
      · intro x hx; simp at hx



/-- Any successful run of `astar`'s main loop from an invariant-satisfying
state yields either the empty path or a start-to-goal path of 8-adjacent
cells whose non-start cells are all passable. -/
theorem astarLoop_ok (map : GMap) (pass : TileSet) (sr sc er ec : Nat) :
    ∀ fuel (st : AStarSt) l,
      NInv map pass sr sc st.nodes →
      astarLoop map pass sr sc er ec fuel st = .ok l →
      l = [] ∨ (l.head? = some (sr, sc) ∧ l.getLast? = some (er, ec) ∧
        l.Chain' adj8 ∧
        ∀ x ∈ l, x ≠ (sr, sc) → passable_by_me (tileAt map x.1 x.2) pass = true) := by
  intro fuel
  induction fuel with
  | zero => intro st l _ h; exact absurd h (by simp [astarLoop])
  | succ k ih =>
    intro st l hinv h
    have h' : astarBody map pass sr sc er ec k (astarLoop map pass sr sc er ec k) st
        = .ok l := h
    unfold astarBody at h'
    split at h'
    · injection h' with h'
      exact Or.inl h'.symm
    · rename_i current rest hpop
      split at h'
      · -- the goal was popped: backtrace
        rename_i hgoal
        obtain ⟨mids, h1, h2, h3, h4, h5⟩ :=
          trace_ok st.nodes sr sc (fun p hp => (hinv p hp).1) k er ec [] l h'
        simp only [List.nil_append] at h1
        right
        refine ⟨?_, ?_, ?_, ?_⟩
        · rw [h1, List.head?_reverse, List.getLast?_concat]
        · rw [h1, List.getLast?_reverse]
          cases hm : mids with
          | nil =>
            obtain ⟨hs1, hs2⟩ := h2 hm
            subst hs1; subst hs2
            simp
          | cons y ys =>
            subst hm
            have hy : y = (er, ec) := h3 y rfl
            simp [hy]
        · rw [h1]
          rw [List.chain'_reverse]
          exact h4.imp (fun _ _ hab => adj8_symm hab)
        · intro x hx hxs
          rw [h1, List.mem_reverse, List.mem_append] at hx
          rcases hx with hx | hx
          · obtain ⟨nd, hnd⟩ := h5 x hx
            exact (hinv (x, nd) hnd).2 hxs
          · simp at hx
            exact absurd hx hxs
      · -- a non-goal pop: expand neighbours, recurse
        dsimp only at h'
        by_cases hv : st.visited.contains current.loc = true
        · rw [if_pos hv] at h'
          split at h'
          · exact Except.noConfusion h'
          · rename_i nodes2 openq2 heq2
            exact ih _ l
              (astarFold_inv map pass sr sc er ec current.loc _ offsets8
                (st.nodes, rest) nodes2 openq2 (by decide) hinv heq2) h'
        · rw [if_neg hv] at h'
          split at h'
          · exact Except.noConfusion h'
          · rename_i nodes2 openq2 heq2
            exact ih _ l
              (astarFold_inv map pass sr sc er ec current.loc _ offsets8
                (st.nodes, rest) nodes2 openq2 (by decide) hinv heq2) h'

/-! ## Claim C3 -/

/-- If the backtrace stands on a cell that is its own parent in the node
table and is not the start, it never terminates: every fuel is exhausted. -/
theorem trace_stuck (nodes : NodeMap) (sr sc cr cc : Nat) (n : ASNode)
    (hfind : findNode nodes (cr, cc) = some n) (hpar : n.parent = (cr, cc))
    (hne : cr ≠ sr ∨ cc ≠ sc) :
    ∀ fuel path, get_path_from_nodes nodes sr sc fuel cr cc path = .error .fuelOut := by
  intro fuel
  induction fuel with
  | zero => intro path; rfl
  | succ k ih =>
    intro path
    show tracePathBody nodes sr sc (get_path_from_nodes nodes sr sc k) cr cc path
      = .error .fuelOut
    unfold tracePathBody
    rw [if_pos hne, hfind]
    simp only [hpar]
    exact ih (path ++ [(cr, cc)])

set_option maxRecDepth 1000000 in
set_option maxHeartbeats 4000000 in
theorem c3_find_path_diverges (n : Nat) :
    find_path m3 0 1 5 0 pw (n + 30) = .error .fuelOut := by
  have h1 : find_path m3 0 1 5 0 pw (n + 30)
      = get_path_from_nodes c3Nodes 0 1 (n + 13) 2 2
          [(5, 0), (5, 1), (4, 2), (3, 3)] := rfl
  rw [h1]
  exact trace_stuck c3Nodes 0 1 2 2 ⟨(2, 2), (2, 2), 8, 2, 5⟩ rfl rfl
    (Or.inl (by decide)) (n + 13) _

/-! ## Claim C1 -/

/-- C1, counterexample: `find_path` panics (rather than failing soft) on a
goal coordinate outside the grid bounds — here goal `(0,5)` on a 1x3 grid. -/
theorem c1_oob_goal_counterexample :
    find_path m2 0 0 0 5 pw 50 = .error .panicked := rfl

/-- C1, amended: `find_path` does not bounds-check the goal; its first
operation indexes `map[end_r][end_c]`, so every query whose goal lies
outside the grid panics instead of returning a value. -/
theorem c1_oob_goal_panics (map : GMap) (sr sc er ec : Nat) (pass : TileSet)
    (fuel : Nat) (h : (map.get? er).bind (fun row => row.get? ec) = none) :
    find_path map sr sc er ec pass fuel = .error .panicked := by
  unfold find_path
  rw [h]

/-- C1, witness for `c1_oob_goal_panics` at the empty grid. -/
theorem c1_oob_goal_panics_witness :
    (([] : GMap).get? 0).bind (fun row => row.get? 0) = none ∧
      find_path [] 3 3 0 0 pw 9 = .error .panicked :=
  ⟨rfl, c1_oob_goal_panics [] 3 3 0 0 pw 9 rfl⟩

/-! ## Claim C2 -/

/-- C2, counterexample: `find_path` has no occupancy input at all; with a
tracked entity (tracker `t0`) standing on `(0,1)`, the returned path still
contains `(0,1)`, which is not the goal. -/
theorem c2_occupied_cell_counterexample :
    is_npc_at t0 0 1 = true ∧
      find_path m2 0 0 0 2 pw 50 = .ok [(0, 0), (0, 1), (0, 2)] ∧
      ((0, 1) : Coord) ∈ [((0, 0) : Coord), (0, 1), (0, 2)] ∧
      ((0, 1) : Coord) ≠ (0, 2) :=
  ⟨rfl, rfl, by decide, by decide⟩

/-- C2, amended: `find_path` consults no occupancy view; cells are blocked
only by terrain passability (and bounds), so whatever tracked entities
exist — here any tracker with an entity on the intermediate cell `(0,1)` —
the path is unchanged and runs through the occupied cell. -/
theorem c2_occupancy_ignored (t : NPCTracker) (_h : is_npc_at t 0 1 = true) :
    find_path m2 0 0 0 2 pw 50 = .ok [(0, 0), (0, 1), (0, 2)] := rfl

/-- C2, witness for `c2_occupancy_ignored` at the tracker `t0`. -/
theorem c2_occupancy_ignored_witness :
    is_npc_at t0 0 1 = true ∧
      find_path m2 0 0 0 2 pw 50 = .ok [(0, 0), (0, 1), (0, 2)] :=
  ⟨rfl, c2_occupancy_ignored t0 rfl⟩

/-! ## Claim C4 -/

/-- C4, counterexample: with the querent landlocked (water cell `(1,1)` of
`m4` walled in) and the goal's terrain impassable, `find_path` returns the
single-element path `[(1,1)]`, not the empty sequence. -/
theorem c4_landlocked_counterexample :
    find_path m4 1 1 0 0 pw 50 = .ok [(1, 1)] ∧
      ([((1 : Nat), (1 : Nat))] : List Coord) ≠ [] :=
  ⟨rfl, by decide⟩

/-- A neighbour offset that fails the bounds or passability check adds
nothing to the flood-fill queue. -/
theorem floodNeighbor_skip (map : GMap) (pass : TileSet) (sr sc : Nat)
    (cur : Coord) (visited : List Coord) (q : List Coord) (off : Int × Int)
    (h : in_bounds map ((cur.1 : Int) + off.1) ((cur.2 : Int) + off.2) = false ∨
      passable_by_me (tileAt map ((cur.1 : Int) + off.1).toNat
        ((cur.2 : Int) + off.2).toNat) pass = false) :
    floodNeighbor map pass sr sc cur visited q off = q := by
  unfold floodNeighbor
  rcases h with h | h
  · rw [if_pos]
    simp [h]
  · by_cases hb : in_bounds map ((cur.1 : Int) + off.1) ((cur.2 : Int) + off.2)
    · rw [if_neg]
      · rw [if_pos]
        simp [h]
      · simp [hb]
    · rw [if_pos]
      simp [hb]

theorem flood_fold_nil (map : GMap) (pass : TileSet) (sr sc : Nat)
    (cur : Coord) (visited : List Coord) :
    ∀ (l : List (Int × Int)) (q : List Coord),
      (∀ off ∈ l, in_bounds map ((cur.1 : Int) + off.1) ((cur.2 : Int) + off.2) = false ∨
        passable_by_me (tileAt map ((cur.1 : Int) + off.1).toNat
          ((cur.2 : Int) + off.2).toNat) pass = false) →
      l.foldl (floodNeighbor map pass sr sc cur visited) q = q := by
  intro l
  induction l with
  | nil => intro q _; rfl
  | cons off rest ih =>
    intro q h
    rw [List.foldl_cons, floodNeighbor_skip map pass sr sc cur visited q off
      (h off (List.mem_cons_self off rest))]
    exact ih q (fun o ho => h o (List.mem_cons_of_mem off ho))

/-- C4, amended: when the goal's terrain is not passable and the querent is
landlocked (no in-bounds passable 8-neighbour of start), the flood fill
collects only the start cell and `find_path` returns the one-element path
`[start]` (not the empty sequence), provided start is not the corner
`(0,0)` that the code uses as its "nothing found" sentinel. -/
theorem c4_landlocked_returns_start (map : GMap) (sr sc er ec : Nat)
    (pass : TileSet) (t : Tile) (f : Nat)
    (h1 : (map.get? er).bind (fun row => row.get? ec) = some t)
    (h2 : passable_by_me t pass = false)
    (h3 : ∀ off ∈ offsets8,
      in_bounds map ((sr : Int) + off.1) ((sc : Int) + off.2) = false ∨
      passable_by_me (tileAt map ((sr : Int) + off.1).toNat
        ((sc : Int) + off.2).toNat) pass = false)
    (h4 : ((sr, sc) : Coord) ≠ (0, 0)) :
    find_path map sr sc er ec pass (f + 2) = .ok [(sr, sc)] := by
  have hflood : find_nearest_reachable map sr sc er ec pass (f + 2) = .ok (sr, sc) := by
    show floodLoop map pass sr sc er ec (f + 1 + 1) ⟨[], [], [(sr, sc)]⟩ = .ok (sr, sc)
    show floodBody map pass sr sc er ec (floodLoop map pass sr sc er ec (f + 1))
      ⟨[], [], [(sr, sc)]⟩ = .ok (sr, sc)
    unfold floodBody
    simp only [List.contains_nil]
    rw [if_neg (by simp)]
    rw [flood_fold_nil map pass sr sc (sr, sc) ((sr, sc) :: []) offsets8 [] h3]
    show floodBody map pass sr sc er ec (floodLoop map pass sr sc er ec f)
      ⟨_, _, []⟩ = .ok (sr, sc)
    unfold floodBody
    rfl
  have hastar : astar map sr sc sr sc pass (f + 2) = .ok [(sr, sc)] := by
    show astarBody map pass sr sc sr sc (f + 1)
      (astarLoop map pass sr sc sr sc (f + 1))
      ⟨insertNode [] (sr, sc) ⟨(sr, sc), (sr, sc), 0, 0, 0⟩, [⟨(sr, sc), 0⟩], []⟩
      = .ok [(sr, sc)]
    unfold astarBody
    show (if ((sr, sc) : Coord) = (sr, sc) then
        get_path_from_nodes (insertNode [] (sr, sc) ⟨(sr, sc), (sr, sc), 0, 0, 0⟩)
          sr sc (f + 1) sr sc []
      else _) = .ok [(sr, sc)]
    rw [if_pos rfl]
    show tracePathBody _ sr sc _ sr sc [] = .ok [(sr, sc)]
    unfold tracePathBody
    rw [if_neg (by simp)]
    rfl
  unfold find_path
  rw [h1]
  simp only [h2, Bool.false_eq_true, not_false_iff, if_true, hflood, if_neg h4]
  exact hastar

/-- C4, witness for `c4_landlocked_returns_start` on the walled-in grid
`m4`. -/
theorem c4_landlocked_returns_start_witness :
    (m4.get? 0).bind (fun row => row.get? 0) = some Tile.Grass ∧
      passable_by_me Tile.Grass pw = false ∧
      ((1, 1) : Coord) ≠ (0, 0) ∧
      find_path m4 1 1 0 0 pw 50 = .ok [(1, 1)] :=
  ⟨rfl, rfl, by decide,
    c4_landlocked_returns_start m4 1 1 0 0 pw Tile.Grass 48 rfl rfl (by decide) (by decide)⟩

/-! ## Claim C5 -/

set_option maxRecDepth 1000000 in
set_option maxHeartbeats 4000000 in
/-- C5, counterexample: the flood fill's radius cap is Manhattan, not
Euclidean.  On the diagonal corridor `m5` the cell `(16,16)` is passable,
adjacent to the selected cell, within 30 cells of Euclidean distance from
the start and strictly closer to the goal, yet the substitute selected is
`(15,15)` — `(16,16)` was cut off by the Manhattan cap (distance 32). -/
theorem c5_euclidean_cap_counterexample :
    find_nearest_reachable m5 0 0 20 20 pw 300 = .ok (15, 15) ∧
      (find_path m5 0 0 20 20 pw 300).map List.getLast? = .ok (some (15, 15)) ∧
      passable_by_me (tileAt m5 16 16) pw = true ∧
      cartesian_d 0 0 16 16 ≤ 30 ∧
      30 < manhattan_d 0 0 16 16 ∧
      cartesian_d 20 20 16 16 < cartesian_d 20 20 15 15 :=
  ⟨rfl, rfl, rfl, by decide, by decide, by decide⟩

/-- `extractMax` returns a member of the list. -/
theorem extractMax_mem : ∀ (xs : List ASQueueItem) (y : ASQueueItem)
    (ys : List ASQueueItem), extractMax xs = some (y, ys) → y ∈ xs := by
  intro xs
  induction xs with
  | nil => intro y ys h; exact absurd h (by simp [extractMax])
  | cons x rest ih =>
    intro y ys h
    unfold extractMax at h
    cases hrec : extractMax rest with
    | none =>
      rw [hrec] at h
      injection h with h
      injection h with h1 _
      rw [← h1]
      exact List.mem_cons_self x rest
    | some p =>
      rw [hrec] at h
      obtain ⟨z, zs⟩ := p
      dsimp only at h
      split at h
      · injection h with h
        injection h with h1 _
        rw [← h1]
        exact List.mem_cons_of_mem x (ih z zs hrec)
      · injection h with h
        injection h with h1 _
        rw [← h1]
        exact List.mem_cons_self x rest

/-- `extractMax` of a non-empty list always yields an item. -/
theorem extractMax_cons_ne_none (x : ASQueueItem) (xs : List ASQueueItem) :
    extractMax (x :: xs) ≠ none := by
  unfold extractMax
  cases extractMax xs with
  | none => simp
  | some p =>
    obtain ⟨y, ys⟩ := p
    dsimp only
    split <;> simp

/-- `extractMax` returns an item whose `f` is maximal. -/
theorem extractMax_max : ∀ (xs : List ASQueueItem) (y : ASQueueItem)
    (ys : List ASQueueItem), extractMax xs = some (y, ys) →
    ∀ z ∈ xs, z.f ≤ y.f := by
  intro xs
  induction xs with
  | nil => intro y ys h; exact absurd h (by simp [extractMax])
  | cons x rest ih =>
    intro y ys h z hz
    unfold extractMax at h
    cases hrec : extractMax rest with
    | none =>
      rw [hrec] at h
      injection h with h
      injection h with h1 _
      rcases List.mem_cons.mp hz with hzx | hzrest
      · rw [hzx, ← h1]
      · cases rest with
        | nil => simp at hzrest
        | cons a b => exact absurd hrec (extractMax_cons_ne_none a b)
    | some p =>
      rw [hrec] at h
      obtain ⟨m, ms⟩ := p
      dsimp only at h
      split at h
      · rename_i hgt
        injection h with h
        injection h with h1 _
        rw [← h1]
        rcases List.mem_cons.mp hz with hzx | hzrest
        · rw [hzx]; exact le_of_lt hgt
        · exact ih m ms hrec z hzrest
      · rename_i hngt
        injection h with h
        injection h with h1 _
        rw [← h1]
        rcases List.mem_cons.mp hz with hzx | hzrest
        · rw [hzx]
        · exact le_trans (ih m ms hrec z hzrest) (not_lt.mp hngt)

/-- Every cell the flood fill enqueues is within the Manhattan 30-cap. -/
theorem floodNeighbor_mem (map : GMap) (pass : TileSet) (sr sc : Nat)
    (cur : Coord) (visited : List Coord) (q : List Coord) (off : Int × Int)
    (x : Coord) (hx : x ∈ floodNeighbor map pass sr sc cur visited q off) :
    x ∈ q ∨ manhattan_d sr sc x.1 x.2 ≤ 30 := by
  unfold floodNeighbor at hx
  dsimp only at hx
  split at hx
  · exact Or.inl hx
  · split at hx
    · exact Or.inl hx
    · split at hx
      · exact Or.inl hx
      · rename_i hcap
        split at hx
        · exact Or.inl hx
        · rcases List.mem_append.mp hx with hq | hnew
          · exact Or.inl hq
          · simp at hnew
            right
            rw [hnew]
            dsimp only
            omega

/-- Folding the flood neighbour step only adds capped cells. -/
theorem floodFold_mem (map : GMap) (pass : TileSet) (sr sc : Nat)
    (cur : Coord) (visited : List Coord) :
    ∀ (l : List (Int × Int)) (q : List Coord) (x : Coord),
      x ∈ l.foldl (floodNeighbor map pass sr sc cur visited) q →
      x ∈ q ∨ manhattan_d sr sc x.1 x.2 ≤ 30 := by
  intro l
  induction l with
  | nil => intro q x hx; exact Or.inl hx
  | cons off rest ih =>
    intro q x hx
    rw [List.foldl_cons] at hx
    rcases ih _ x hx with hmem | hcap
    · exact floodNeighbor_mem map pass sr sc cur visited q off x hmem
    · exact Or.inr hcap

/-- Any successful flood fill returns the sentinel `(0,0)` or a collected
cell that is within the Manhattan cap (or is the start) and minimises the
truncated Euclidean distance to the goal among all collected cells. -/
theorem floodLoop_ok (map : GMap) (pass : TileSet) (sr sc er ec : Nat) :
    ∀ fuel (st : FloodSt) loc,
      FloodInv sr sc er ec st →
      floodLoop map pass sr sc er ec fuel st = .ok loc →
      loc = (0, 0) ∨ ∃ L : List Coord, loc ∈ L ∧
        (∀ x ∈ L, x = (sr, sc) ∨ manhattan_d sr sc x.1 x.2 ≤ 30) ∧
        (∀ x ∈ L, cartesian_d er ec loc.1 loc.2 ≤ cartesian_d er ec x.1 x.2) := by
  intro fuel
  induction fuel with
  | zero => intro st loc _ h; exact absurd h (by simp [floodLoop])
  | succ k ih =>
    intro st loc hinv h
    have h' : floodBody map pass sr sc er ec (floodLoop map pass sr sc er ec k) st
        = .ok loc := h
    unfold floodBody at h'
    split at h'
    · -- queue empty: pop the best collected cell
      rename_i hq
      split at h'
      · rename_i n rest hpop
        injection h' with h'
        right
        refine ⟨st.sqs.map (·.loc), ?_, ?_, ?_⟩
        · rw [← h']
          exact List.mem_map.mpr ⟨n, extractMax_mem st.sqs n rest hpop, rfl⟩
        · intro x hx
          rcases List.mem_map.mp hx with ⟨it, hit, hl⟩
          rw [← hl]
          exact (hinv.1 it hit).2
        · intro x hx
          rcases List.mem_map.mp hx with ⟨it, hit, hl⟩
          have hle := extractMax_max st.sqs n rest hpop it hit
          have hfn := (hinv.1 n (extractMax_mem st.sqs n rest hpop)).1
          have hfi := (hinv.1 it hit).1
          rw [hfn, hfi] at hle
          rw [← h', ← hl]
          have := neg_le_neg_iff.mp hle
          exact_mod_cast this
      · injection h' with h'
        exact Or.inl h'.symm
    · -- dequeue one cell
      rename_i curr rest hq
      split at h'
      · refine ih _ loc ?_ h'
        refine ⟨hinv.1, fun x hx => hinv.2 x ?_⟩
        rw [hq]
        exact List.mem_cons_of_mem curr hx
      · refine ih _ loc ?_ h'
        refine ⟨?_, ?_⟩
        · intro it hit
          rcases List.mem_append.mp hit with hold | hnew
          · exact hinv.1 it hold
          · simp at hnew
            rw [hnew]
            refine ⟨rfl, ?_⟩
            refine hinv.2 curr ?_
            rw [hq]
            exact List.mem_cons_self curr rest
        · intro x hx
          rcases floodFold_mem map pass sr sc curr (curr :: st.visited) offsets8 rest x hx with
            hmem | hcap
          · refine hinv.2 x ?_
            rw [hq]
            exact List.mem_cons_of_mem curr hmem
          · exact Or.inr hcap

/-- C5, amended: when the goal's terrain is not in the passability set,
`find_path` re-runs A* toward the flood fill's substitute (or returns empty
on the `(0,0)` sentinel); the flood fill is restricted to passable cells
within 30 cells of MANHATTAN (not Euclidean) distance from the start, and
the substitute minimises the truncated Euclidean distance to the original
goal among the collected cells. -/
theorem c5_manhattan_cap_flood (map : GMap) (sr sc er ec : Nat)
    (pass : TileSet) (fuel : Nat) (t : Tile) (loc : Coord)
    (hlook : (map.get? er).bind (fun row => row.get? ec) = some t)
    (himp : passable_by_me t pass = false)
    (hres : find_nearest_reachable map sr sc er ec pass fuel = .ok loc) :
    (find_path map sr sc er ec pass fuel =
      if loc = ((0, 0) : Coord) then .ok []
      else astar map sr sc loc.1 loc.2 pass fuel) ∧
    (loc = (0, 0) ∨ ∃ L : List Coord, loc ∈ L ∧
      (∀ x ∈ L, x = (sr, sc) ∨ manhattan_d sr sc x.1 x.2 ≤ 30) ∧
      (∀ x ∈ L, cartesian_d er ec loc.1 loc.2 ≤ cartesian_d er ec x.1 x.2)) := by
  constructor
  · unfold find_path
    rw [hlook]
    simp only [himp, Bool.false_eq_true, not_false_iff, if_true, hres]
  · refine floodLoop_ok map pass sr sc er ec fuel ⟨[], [], [(sr, sc)]⟩ loc ⟨?_, ?_⟩ hres
    · intro it hit; simp at hit
    · intro x hx
      simp at hx
      exact Or.inl (by rw [hx])

/-- C5, witness for `c5_manhattan_cap_flood` on the landlocked grid `m4`. -/
theorem c5_manhattan_cap_flood_witness :
    (m4.get? 0).bind (fun row => row.get? 0) = some Tile.Grass ∧
      passable_by_me Tile.Grass pw = false ∧
      find_nearest_reachable m4 1 1 0 0 pw 50 = .ok (1, 1) ∧
      (find_path m4 1 1 0 0 pw 50 =
        if ((1, 1) : Coord) = (0, 0) then .ok []
        else astar m4 1 1 1 1 pw 50) :=
  ⟨rfl, rfl, rfl, (c5_manhattan_cap_flood m4 1 1 0 0 pw 50 Tile.Grass (1, 1)
    rfl rfl rfl).1⟩

/-! ## Claim C8 -/

/-- A successful checked write puts the value at the index. -/
theorem setAtN_get {α : Type} (l : List α) (i : Nat) (x : α) (l' : List α)
    (h : setAtN l i x = .ok l') : l'.get? i = some x := by
  unfold setAtN at h
  split at h
  · rename_i hlt
    injection h with h
    rw [← h]
    exact List.get?_set_eq_of_lt x hlt
  · exact Except.noConfusion h

/-- The final overwrite always leaves a `Player` tile at the centre. -/
theorem stampPlayer_center (map : GMap) (ships : List (Coord × Ship))
    (player : PlayerSt) (v : List Tile) (i : Nat) (v' : List Tile)
    (h : stampPlayer map ships player v i = .ok v') :
    ∃ c, v'.get? i = some (Tile.Player c) := by
  unfold stampPlayer at h
  split at h
  · exact ⟨BROWN, setAtN_get v i _ v' h⟩
  · split at h
    · exact Except.noConfusion h
    · split at h
      · exact ⟨LIGHT_BLUE, setAtN_get v i _ v' h⟩
      · exact ⟨WHITE, setAtN_get v i _ v' h⟩

/-- C8 (confirmed): whatever the game state, radius profile, fog and
viewport, a buffer returned by `calc_v_matrix` has the viewer's own
(centre) cell stamped with a `Player` tile — never left `Blank`. -/
theorem c8_center_player (state : GameState) (items : ItemsTable)
    (ships : List (Coord × Ship)) (height width fuel : Nat)
    (vm : List Tile) (seen : List Coord)
    (h : calc_v_matrix state items ships height width fuel = .ok (vm, seen)) :
    (∃ c, vm.get? (height / 2 * width + width / 2) = some (Tile.Player c)) ∧
      vm.get? (height / 2 * width + width / 2) ≠ some Tile.Blank := by
  unfold calc_v_matrix at h
  dsimp only at h
  split at h
  · exact Except.noConfusion h
  · rename_i visible seen2 hfold
    split at h
    · exact Except.noConfusion h
    · rename_i v2 hrest
      injection h with h
      injection h with h1 _
      unfold calcRest at hrest
      split at hrest
      · exact Except.noConfusion hrest
      · split at hrest
        · exact Except.noConfusion hrest
        · obtain ⟨c, hc⟩ := stampPlayer_center state.map ships state.player _ _ v2 hrest
          rw [← h1]
          refine ⟨⟨c, hc⟩, ?_⟩
          rw [hc]
          simp

set_option maxRecDepth 1000000 in
set_option maxHeartbeats 4000000 in
/-- C8, witness for `c8_center_player` on the concrete state `s0`. -/
theorem c8_center_player_witness :
    ∃ vm seen c, calc_v_matrix s0 items0 [] 21 2 50 = .ok (vm, seen) ∧
      vm.get? (21 / 2 * 2 + 2 / 2) = some (Tile.Player c) ∧
      vm.get? (21 / 2 * 2 + 2 / 2) ≠ some Tile.Blank := by
  obtain ⟨vm, seen, h⟩ : ∃ vm seen, calc_v_matrix s0 items0 [] 21 2 50 = .ok (vm, seen) :=
    ⟨_, _, rfl⟩
  obtain ⟨⟨c, hc⟩, hnb⟩ := c8_center_player s0 items0 [] 21 2 50 vm seen h
  exact ⟨vm, seen, c, h, hc, hnb⟩

/-! ## Claims C6 and C7 -/

/-- C6 (confirmed): every non-empty path returned by `find_path` starts at
the start coordinate, ends at the goal actually sought (the original goal
when its terrain is passable, otherwise the flood-fill substitute), and
every consecutive pair of coordinates differs by at most 1 in each axis. -/
theorem c6_path_endpoints_adjacency (map : GMap) (sr sc er ec : Nat)
    (pass : TileSet) (fuel : Nat) (l : List Coord)
    (h : find_path map sr sc er ec pass fuel = .ok l) (hne : l ≠ []) :
    l.head? = some (sr, sc) ∧ l.Chain' adj8 ∧
      ∃ goal' : Coord,
        (goal' = (er, ec) ∨
          find_nearest_reachable map sr sc er ec pass fuel = .ok goal') ∧
        l.getLast? = some goal' := by
  have hinv0 : ∀ a b : Nat, NInv map pass sr sc
      (insertNode [] (sr, sc) ⟨(sr, sc), (sr, sc), 0, 0, 0⟩) := by
    intro _ _ p hp
    rcases List.mem_cons.mp hp with heq | habs
    · subst heq
      exact ⟨⟨by simp [Nat.dist_self], by simp [Nat.dist_self]⟩, fun hc => absurd rfl hc⟩
    · simp at habs
  unfold find_path at h
  split at h
  · exact Except.noConfusion h
  · rename_i t hlook
    split at h
    · -- goal terrain impassable: the flood-fill substitute is sought
      split at h
      · exact Except.noConfusion h
      · rename_i res hres
        split at h
        · injection h with h
          exact absurd h.symm hne
        · rcases astarLoop_ok map pass sr sc res.1 res.2 fuel _ l (hinv0 0 0) h with
            hl | ⟨hh, hl, hch, _⟩
          · exact absurd hl hne
          · exact ⟨hh, hch, (res.1, res.2), Or.inr (by rw [hres]), hl⟩
    · -- goal terrain passable: the original goal is sought
      rcases astarLoop_ok map pass sr sc er ec fuel _ l (hinv0 0 0) h with
        hl | ⟨hh, hl, hch, _⟩
      · exact absurd hl hne
      · exact ⟨hh, hch, (er, ec), Or.inl rfl, hl⟩

/-- C6, witness on the corridor `m2`. -/
theorem c6_path_endpoints_adjacency_witness :
    ([((0 : Nat), (0 : Nat)), (0, 1), (0, 2)] : List Coord).head? = some (0, 0) ∧
      ([((0 : Nat), (0 : Nat)), (0, 1), (0, 2)] : List Coord).Chain' adj8 ∧
      ∃ goal' : Coord,
        (goal' = (0, 2) ∨ find_nearest_reachable m2 0 0 0 2 pw 50 = .ok goal') ∧
        ([((0 : Nat), (0 : Nat)), (0, 1), (0, 2)] : List Coord).getLast? = some goal' :=
  c6_path_endpoints_adjacency m2 0 0 0 2 pw 50 _ rfl (by decide)

/-- C7, counterexample: a path through the impassable start cell: on `m7`
the start `(0,0)` is a wall, is not the goal, and is in the returned path. -/
theorem c7_passability_counterexample :
    find_path m7 0 0 0 1 pw 50 = .ok [(0, 0), (0, 1)] ∧
      passable_by_me (tileAt m7 0 0) pw = false ∧
      ((0, 0) : Coord) ≠ (0, 1) :=
  ⟨rfl, rfl, by decide⟩

/-- C7, amended: every coordinate of a path returned by `find_path` except
possibly the START has terrain in the caller's passability set (the goal
needs no separate exception: a goal cell that makes it into a non-trivial
path was entered through the same passability check). -/
theorem c7_passable_except_start (map : GMap) (sr sc er ec : Nat)
    (pass : TileSet) (fuel : Nat) (l : List Coord)
    (h : find_path map sr sc er ec pass fuel = .ok l) :
    ∀ x ∈ l, x ≠ (sr, sc) → passable_by_me (tileAt map x.1 x.2) pass = true := by
  have hinv0 : NInv map pass sr sc
      (insertNode [] (sr, sc) ⟨(sr, sc), (sr, sc), 0, 0, 0⟩) := by
    intro p hp
    rcases List.mem_cons.mp hp with heq | habs
    · subst heq
      exact ⟨⟨by simp [Nat.dist_self], by simp [Nat.dist_self]⟩, fun hc => absurd rfl hc⟩
    · simp at habs
  unfold find_path at h
  split at h
  · exact Except.noConfusion h
  · rename_i t hlook
    split at h
    · split at h
      · exact Except.noConfusion h
      · rename_i res hres
        split at h
        · injection h with h
          intro x hx
          rw [← h] at hx
          simp at hx
        · rcases astarLoop_ok map pass sr sc res.1 res.2 fuel _ l hinv0 h with
            hl | ⟨_, _, _, hp⟩
          · intro x hx; rw [hl] at hx; simp at hx
          · exact hp
    · rcases astarLoop_ok map pass sr sc er ec fuel _ l hinv0 h with
        hl | ⟨_, _, _, hp⟩
      · intro x hx; rw [hl] at hx; simp at hx
      · exact hp

/-- C7, witness for `c7_passable_except_start` on `m7`: the non-start cell
`(0,1)` of the returned path is passable. -/
theorem c7_passable_except_start_witness :
    find_path m7 0 0 0 1 pw 50 = .ok [(0, 0), (0, 1)] ∧
      passable_by_me (tileAt m7 0 1) pw = true :=
  ⟨rfl, c7_passable_except_start m7 0 0 0 1 pw 50 [(0, 0), (0, 1)] rfl
    (0, 1) (by decide) (by decide)⟩

/-! ## Claim C9 -/

/-- C9, counterexample: in the ship overlay pass, a buffer cell already
resolved to a creature IS overwritten when it is the vessel's centre cell —
`add_ship` stamps the deck unconditionally; only bow and aft are guarded. -/
theorem c9_center_overwrites_creature_counterexample :
    v9.get? 4 = some (Tile.Creature WHITE 'g') ∧
      (add_ships_to_v_matrix m9 v9 ships9 1 1 2 3).map (fun v => v.get? 4)
        = .ok (some (Tile.ShipPart 'D')) :=
  ⟨rfl, rfl⟩

/-- A successful checked write is an in-range `List.set`. -/
theorem setAtN_ok {α : Type} (l : List α) (i : Nat) (x : α) (l' : List α)
    (h : setAtN l i x = .ok l') : i < l.length ∧ l' = l.set i x := by
  unfold setAtN at h
  split at h
  · rename_i hlt
    injection h with h
    exact ⟨hlt, h.symm⟩
  · exact Except.noConfusion h

/-- `shipStamp` never touches a cell holding a `Creature` or `Blank`. -/
theorem shipStamp_preserves (v : List Tile) (j : Int) (ch : Char) (i : Nat)
    (hspec : (∃ cc ch2, v.get? i = some (.Creature cc ch2)) ∨ v.get? i = some .Blank) :
    (shipStamp v j ch).get? i = v.get? i := by
  unfold shipStamp
  split
  · rename_i hg
    by_cases hj : j.toNat = i
    · subst hj
      rcases hspec with ⟨cc, ch2, hc⟩ | hb
      · have hd : v.getD j.toNat .Blank = .Creature cc ch2 := by
          rw [List.getD_eq_getD_get?, hc]
          rfl
        rw [hd]
      · have hd : v.getD j.toNat .Blank = .Blank := by
          rw [List.getD_eq_getD_get?, hb]
          rfl
        rw [hd]
    · split
      · rfl
      · rfl
      · exact List.get?_set_ne _ _ hj
  · rfl

/-- `shipStamp` leaves a ship-part tile at any cell that already has one. -/
theorem shipStamp_shippart (v : List Tile) (j : Int) (ch : Char) (i : Nat)
    (hsp : ∃ ch0, v.get? i = some (.ShipPart ch0)) :
    ∃ ch1, (shipStamp v j ch).get? i = some (.ShipPart ch1) := by
  unfold shipStamp
  split
  · rename_i hg
    by_cases hj : j.toNat = i
    · subst hj
      split
      · exact hsp
      · exact hsp
      · refine ⟨ch, ?_⟩
        have hlt : j.toNat < v.length := by omega
        exact List.get?_set_eq_of_lt _ hlt
    · split
      · exact hsp
      · exact hsp
      · rw [List.get?_set_ne _ _ hj]
        exact hsp
  · exact hsp

/-- C9, amended: in the ship overlay, the vessel's CENTRE cell is stamped
with a ship-part tile unconditionally (even over a creature), while the bow
and aft cells never overwrite a cell already resolved to a creature (or
left blank) — those keep their previous content. -/
theorem c9_ship_overlay (v : List Tile) (row col : Nat) (ship : Ship)
    (width : Nat) (v' : List Tile)
    (h : add_ship v row col ship width = .ok v') :
    (∃ ch, v'.get? (row * width + col) = some (Tile.ShipPart ch)) ∧
    (∀ i : Nat, i ≠ row * width + col →
      (∃ cc ch2, v.get? i = some (.Creature cc ch2)) ∨ v.get? i = some .Blank →
      v'.get? i = v.get? i) := by
  unfold add_ship at h
  split at h
  · exact Except.noConfusion h
  · rename_i v1 hset
    obtain ⟨hlt, hv1⟩ := setAtN_ok v (row * width + col) _ v1 hset
    injection h with h
    subst h
    constructor
    · apply shipStamp_shippart
      apply shipStamp_shippart
      refine ⟨ship.deck_ch, ?_⟩
      rw [hv1]
      exact List.get?_set_eq_of_lt _ hlt
    · intro i hne hspec
      have h1 : v1.get? i = v.get? i := by
        rw [hv1]
        exact List.get?_set_ne _ _ (fun hc => hne hc.symm)
      have hspec1 : (∃ cc ch2, v1.get? i = some (.Creature cc ch2)) ∨
          v1.get? i = some .Blank := by
        rw [h1]
        exact hspec
      have h2 := shipStamp_preserves v1
        (((ship.bow_row : Int) - ship.row + row) * width +
          ((ship.bow_col : Int) - ship.col + col)) ship.bow_ch i hspec1
      have hspec2 : (∃ cc ch2,
          (shipStamp v1 (((ship.bow_row : Int) - ship.row + row) * width +
            ((ship.bow_col : Int) - ship.col + col)) ship.bow_ch).get? i
          = some (.Creature cc ch2)) ∨
          (shipStamp v1 (((ship.bow_row : Int) - ship.row + row) * width +
            ((ship.bow_col : Int) - ship.col + col)) ship.bow_ch).get? i
          = some .Blank := by
        rw [h2, h1]
        exact hspec
      have h3 := shipStamp_preserves _
        (((ship.aft_row : Int) - ship.row + row) * width +
          ((ship.aft_col : Int) - ship.col + col)) ship.aft_ch i hspec2
      rw [h3, h2, h1]

/-- C9, witness for `c9_ship_overlay` at the concrete overlay instance. -/
theorem c9_ship_overlay_witness :
    add_ship v9 1 1 ship0 3 =
      .ok [Tile.Blank, Tile.ShipPart 'B', Tile.Blank, Tile.Blank,
        Tile.ShipPart 'D', Tile.Blank] ∧
    (∃ ch, ([Tile.Blank, Tile.ShipPart 'B', Tile.Blank, Tile.Blank,
        Tile.ShipPart 'D', Tile.Blank].get? (1 * 3 + 1))
      = some (Tile.ShipPart ch)) ∧
    ([Tile.Blank, Tile.ShipPart 'B', Tile.Blank, Tile.Blank,
        Tile.ShipPart 'D', Tile.Blank].get? 0 = v9.get? 0) :=
  ⟨rfl, (c9_ship_overlay v9 1 1 ship0 3 _ rfl).1,
    (c9_ship_overlay v9 1 1 ship0 3 _ rfl).2 0 (by decide) (Or.inr rfl)⟩

/-! ## Claim C10 -/

set_option maxRecDepth 1000000 in
set_option maxHeartbeats 4000000 in
/-- C10, counterexample: `calc_v_matrix` is not free of caller-visible
mutation — on the state `s0` (with `world_seen` empty) it returns a
`world_seen` holding the newly recorded cell `(0,0)`. -/
theorem c10_mutates_world_seen_counterexample :
    (calc_v_matrix s0 items0 [] 21 2 50).map Prod.snd
        = .ok [(0, 0)] ∧
      ([((0 : Nat), (0 : Nat))] : List Coord) ≠ s0.world_seen :=
  ⟨rfl, by decide⟩

/-- The row-major beam loop never reads `world_seen`: the buffer component
and error behaviour of its result are independent of it. -/
theorem markVisibleR_fst_indep (map : GMap) (clouds : List Coord)
    (no_fog : List (Int × Int)) (width : Nat) (r1 c1 : Int)
    (r_step c_step delta_r delta_c criterion : Int) :
    ∀ fuel r c error r_end vbuf s1 s2,
      (markVisibleR map clouds no_fog width r1 c1 r_step c_step delta_r delta_c
        criterion fuel r c error r_end vbuf s1).map Prod.fst
      = (markVisibleR map clouds no_fog width r1 c1 r_step c_step delta_r delta_c
        criterion fuel r c error r_end vbuf s2).map Prod.fst := by
  intro fuel
  induction fuel with
  | zero => intro r c error r_end vbuf s1 s2; rfl
  | succ k ih =>
    intro r c error r_end vbuf s1 s2
    show (markVisibleRBody map clouds no_fog width r1 c1 r_step c_step delta_r delta_c
        criterion (markVisibleR map clouds no_fog width r1 c1 r_step c_step delta_r
          delta_c criterion k) r c error r_end vbuf s1).map Prod.fst
      = (markVisibleRBody map clouds no_fog width r1 c1 r_step c_step delta_r delta_c
        criterion (markVisibleR map clouds no_fog width r1 c1 r_step c_step delta_r
          delta_c criterion k) r c error r_end vbuf s2).map Prod.fst
    unfold markVisibleRBody
    by_cases hA : (r_step > 0 ∧ r ≥ r_end + r_step) ∨ (r_step < 0 ∧ r ≤ r_end + r_step)
    · rw [if_pos hA, if_pos hA]
      rfl
    · rw [if_neg hA, if_neg hA]
      by_cases hB : ¬ in_bounds map r c = true
      · rw [if_pos hB, if_pos hB]
        rfl
      · rw [if_neg hB, if_neg hB]
        dsimp only
        cases hset : setAtI vbuf ((r - r1 + 10) * (width : Int) + (c - c1 + 20)) true with
        | error e => rfl
        | ok vb =>
          dsimp only
          by_cases hC : ¬ is_clear (tileAt map r.toNat c.toNat) = true
          · rw [if_pos hC, if_pos hC]
            rfl
          · rw [if_neg hC, if_neg hC]
            by_cases hD : clouds.contains (r.toNat, c.toNat) = true ∧
                ¬ no_fog.contains (r, c) = true
            · rw [if_pos hD, if_pos hD]
              rfl
            · rw [if_neg hD, if_neg hD]
              by_cases hE : error + delta_c > criterion
              · rw [if_pos hE, if_pos hE]
                exact ih _ _ _ _ vb (insertSet s1 (r.toNat, c.toNat))
                  (insertSet s2 (r.toNat, c.toNat))
              · rw [if_neg hE, if_neg hE]
                exact ih _ _ _ _ vb (insertSet s1 (r.toNat, c.toNat))
                  (insertSet s2 (r.toNat, c.toNat))

/-- Same fact for the column-major beam loop. -/
theorem markVisibleC_fst_indep (map : GMap) (clouds : List Coord)
    (no_fog : List (Int × Int)) (width : Nat) (r1 c1 : Int)
    (r_step c_step delta_r delta_c criterion : Int) :
    ∀ fuel r c error c_end vbuf s1 s2,
      (markVisibleC map clouds no_fog width r1 c1 r_step c_step delta_r delta_c
        criterion fuel r c error c_end vbuf s1).map Prod.fst
      = (markVisibleC map clouds no_fog width r1 c1 r_step c_step delta_r delta_c
        criterion fuel r c error c_end vbuf s2).map Prod.fst := by
  intro fuel
  induction fuel with
  | zero => intro r c error c_end vbuf s1 s2; rfl
  | succ k ih =>
    intro r c error c_end vbuf s1 s2
    show (markVisibleCBody map clouds no_fog width r1 c1 r_step c_step delta_r delta_c
        criterion (markVisibleC map clouds no_fog width r1 c1 r_step c_step delta_r
          delta_c criterion k) r c error c_end vbuf s1).map Prod.fst
      = (markVisibleCBody map clouds no_fog width r1 c1 r_step c_step delta_r delta_c
        criterion (markVisibleC map clouds no_fog width r1 c1 r_step c_step delta_r
          delta_c criterion k) r c error c_end vbuf s2).map Prod.fst
    unfold markVisibleCBody
    by_cases hA : (c_step > 0 ∧ c ≥ c_end + c_step) ∨ (c_step < 0 ∧ c ≤ c_end + c_step)
    · rw [if_pos hA, if_pos hA]
      rfl
    · rw [if_neg hA, if_neg hA]
      by_cases hB : ¬ in_bounds map r c = true
      · rw [if_pos hB, if_pos hB]
        rfl
      · rw [if_neg hB, if_neg hB]
        dsimp only
        cases hset : setAtI vbuf ((r - r1 + 10) * (width : Int) + (c - c1 + 20)) true with
        | error e => rfl
        | ok vb =>
          dsimp only
          by_cases hC : ¬ is_clear (tileAt map r.toNat c.toNat) = true
          · rw [if_pos hC, if_pos hC]
            rfl
          · rw [if_neg hC, if_neg hC]
            by_cases hD : clouds.contains (r.toNat, c.toNat) = true ∧
                ¬ no_fog.contains (r, c) = true
            · rw [if_pos hD, if_pos hD]
              rfl
            · rw [if_neg hD, if_neg hD]
              by_cases hE : error + delta_r > criterion
              · rw [if_pos hE, if_pos hE]
                exact ih _ _ _ _ vb (insertSet s1 (r.toNat, c.toNat))
                  (insertSet s2 (r.toNat, c.toNat))
              · rw [if_neg hE, if_neg hE]
                exact ih _ _ _ _ vb (insertSet s1 (r.toNat, c.toNat))
                  (insertSet s2 (r.toNat, c.toNat))

/-- `mark_visible` never reads `world_seen`. -/
theorem mark_visible_fst_indep (map : GMap) (clouds : List Coord)
    (r1 c1 r2 c2 : Int) (vbuf : List Bool) (s1 s2 : List Coord)
    (width : Nat) (no_fog : List (Int × Int)) (fuel : Nat) :
    (mark_visible map clouds r1 c1 r2 c2 vbuf s1 width no_fog fuel).map Prod.fst
    = (mark_visible map clouds r1 c1 r2 c2 vbuf s2 width no_fog fuel).map Prod.fst := by
  unfold mark_visible
  dsimp only
  by_cases hdr : r2 - r1 < 0 <;> by_cases hdc : c2 - c1 < 0 <;>
    simp only [hdr, hdc, if_true, if_false] <;>
    split <;>
    first
      | exact markVisibleR_fst_indep map clouds no_fog width r1 c1 _ _ _ _ _ fuel
          r1 c1 0 r2 vbuf s1 s2
      | exact markVisibleC_fst_indep map clouds no_fog width r1 c1 _ _ _ _ _ fuel
          r1 c1 0 c2 vbuf s1 s2

/-- The perimeter beamcasting fold never reads `world_seen`. -/
theorem perimeterFold_fst_indep (map : GMap) (clouds : List Coord)
    (pr pc : Int) (width : Nat) (no_fog : List (Int × Int)) (fuel : Nat) :
    ∀ (per : List (Int × Int)) (v : List Bool) (s1 s2 : List Coord),
      (per.foldlM (fun (acc : List Bool × List Coord) loc =>
        mark_visible map clouds pr pc (pr + loc.1) (pc + loc.2)
          acc.1 acc.2 width no_fog fuel) (v, s1)).map Prod.fst
      = (per.foldlM (fun (acc : List Bool × List Coord) loc =>
        mark_visible map clouds pr pc (pr + loc.1) (pc + loc.2)
          acc.1 acc.2 width no_fog fuel) (v, s2)).map Prod.fst := by
  intro per
  induction per with
  | nil => intro v s1 s2; rfl
  | cons loc rest ih =>
    intro v s1 s2
    rw [List.foldlM_cons, List.foldlM_cons]
    have hme := mark_visible_fst_indep map clouds pr pc (pr + loc.1) (pc + loc.2)
      v s1 s2 width no_fog fuel
    cases hm1 : mark_visible map clouds pr pc (pr + loc.1) (pc + loc.2) v s1
        width no_fog fuel with
    | error e =>
      rw [hm1] at hme
      cases hm2 : mark_visible map clouds pr pc (pr + loc.1) (pc + loc.2) v s2
          width no_fog fuel with
      | error e2 =>
        rw [hm2] at hme
        injection hme with hme
        rw [hme]
      | ok p2 =>
        rw [hm2] at hme
        exact Except.noConfusion hme
    | ok p1 =>
      cases hm2 : mark_visible map clouds pr pc (pr + loc.1) (pc + loc.2) v s2
          width no_fog fuel with
      | error e2 =>
        rw [hm1, hm2] at hme
        exact Except.noConfusion hme
      | ok p2 =>
        rw [hm1, hm2] at hme
        injection hme with hme
        obtain ⟨v1, t1⟩ := p1
        obtain ⟨v2, t2⟩ := p2
        dsimp only at hme
        subst hme
        have step1 : (Except.ok (ε := RErr) (v1, t1) >>=
            fun a => rest.foldlM (fun (acc : List Bool × List Coord) loc =>
              mark_visible map clouds pr pc (pr + loc.1) (pc + loc.2)
                acc.1 acc.2 width no_fog fuel) a)
            = rest.foldlM (fun (acc : List Bool × List Coord) loc =>
              mark_visible map clouds pr pc (pr + loc.1) (pc + loc.2)
                acc.1 acc.2 width no_fog fuel) (v1, t1) := rfl
        have step2 : (Except.ok (ε := RErr) (v1, t2) >>=
            fun a => rest.foldlM (fun (acc : List Bool × List Coord) loc =>
              mark_visible map clouds pr pc (pr + loc.1) (pc + loc.2)
                acc.1 acc.2 width no_fog fuel) a)
            = rest.foldlM (fun (acc : List Bool × List Coord) loc =>
              mark_visible map clouds pr pc (pr + loc.1) (pc + loc.2)
                acc.1 acc.2 width no_fog fuel) (v1, t2) := rfl

        rw [step1, step2]
        exact ih v1 t1 t2



/-- `calcRest` reads no `world_seen`: changing that field changes nothing. -/
theorem calcRest_seen_irrel (m : GMap) (np : NPCTracker) (wth : Weather)
    (vr : Nat) (pl : PlayerSt) (w1 w2 : List Coord) (items : ItemsTable)
    (ships : List (Coord × Ship)) (height width : Nat)
    (no_fog : List (Int × Int)) (visible : List Bool) :
    calcRest ⟨m, np, wth, w1, vr, pl⟩ items ships height width no_fog visible
      = calcRest ⟨m, np, wth, w2, vr, pl⟩ items ships height width no_fog visible := rfl

/-- C10, amended: two successive calls return the same buffer — the buffer
component of `calc_v_matrix` is independent of `state.world_seen`, the one
field the call updates. -/
theorem c10_buffer_independent_of_world_seen (state : GameState)
    (items : ItemsTable) (ships : List (Coord × Ship))
    (height width fuel : Nat) (w : List Coord) :
    ((calc_v_matrix { state with world_seen := w } items ships height width fuel).map
        Prod.fst
      = (calc_v_matrix state items ships height width fuel).map Prod.fst) ∧
    (∀ vm seen, calc_v_matrix state items ships height width fuel = .ok (vm, seen) →
      (calc_v_matrix { state with world_seen := seen } items ships height width
        fuel).map Prod.fst = .ok vm) := by
  have hmain : ∀ w1 w2 : List Coord,
      (calc_v_matrix { state with world_seen := w1 } items ships height width fuel).map
        Prod.fst
      = (calc_v_matrix { state with world_seen := w2 } items ships height width fuel).map
        Prod.fst := by
    intro w1 w2
    unfold calc_v_matrix
    dsimp only
    have hf := perimeterFold_fst_indep state.map state.weather.clouds
      (state.player.row : Int) (state.player.col : Int) width
      (calcNoFog state.player) fuel (calcPerimeter state.vision_radius)
      (List.replicate (height * width) false) w1 w2
    cases h1 : (calcPerimeter state.vision_radius).foldlM
        (fun (acc : List Bool × List Coord) loc =>
          mark_visible state.map state.weather.clouds (state.player.row : Int)
            (state.player.col : Int) ((state.player.row : Int) + loc.1)
            ((state.player.col : Int) + loc.2) acc.1 acc.2 width
            (calcNoFog state.player) fuel)
        (List.replicate (height * width) false, w1) with
    | error e =>
      rw [h1] at hf
      cases h2 : (calcPerimeter state.vision_radius).foldlM
          (fun (acc : List Bool × List Coord) loc =>
            mark_visible state.map state.weather.clouds (state.player.row : Int)
              (state.player.col : Int) ((state.player.row : Int) + loc.1)
              ((state.player.col : Int) + loc.2) acc.1 acc.2 width
              (calcNoFog state.player) fuel)
          (List.replicate (height * width) false, w2) with
      | error e2 =>
        rw [h2] at hf
        injection hf with hf
        rw [hf]
      | ok p2 =>
        rw [h2] at hf
        exact Except.noConfusion hf
    | ok p1 =>
      cases h2 : (calcPerimeter state.vision_radius).foldlM
          (fun (acc : List Bool × List Coord) loc =>
            mark_visible state.map state.weather.clouds (state.player.row : Int)
              (state.player.col : Int) ((state.player.row : Int) + loc.1)
              ((state.player.col : Int) + loc.2) acc.1 acc.2 width
              (calcNoFog state.player) fuel)
          (List.replicate (height * width) false, w2) with
      | error e2 =>
        rw [h1, h2] at hf
        exact Except.noConfusion hf
      | ok p2 =>
        rw [h1, h2] at hf
        injection hf with hf
        obtain ⟨v1, t1⟩ := p1
        obtain ⟨v2, t2⟩ := p2
        dsimp only at hf
        subst hf
        dsimp only
        rw [calcRest_seen_irrel state.map state.npcs state.weather
          state.vision_radius state.player w1 w2]
        cases hrest : calcRest ⟨state.map, state.npcs, state.weather, w2,
            state.vision_radius, state.player⟩ items ships height width
            (calcNoFog state.player) v1 with
        | error e => rfl
        | ok vmx => rfl
  have heta : ({ state with world_seen := state.world_seen } : GameState) = state := rfl
  constructor
  · have h := hmain w state.world_seen
    rw [heta] at h
    exact h
  · intro vm seen hok
    have h := hmain seen state.world_seen
    rw [heta] at h
    rw [h, hok]
    rfl

set_option maxRecDepth 1000000 in
set_option maxHeartbeats 4000000 in
/-- C10, witness for `c10_buffer_independent_of_world_seen`: feeding the
`world_seen` produced by one call back into a second call yields the same
buffer. -/
theorem c10_buffer_independent_witness :
    ∃ vm seen, calc_v_matrix s0 items0 [] 21 2 50 = .ok (vm, seen) ∧
      (calc_v_matrix { s0 with world_seen := seen } items0 [] 21 2 50).map Prod.fst
        = .ok vm := by
  obtain ⟨vm, seen, h⟩ : ∃ vm seen, calc_v_matrix s0 items0 [] 21 2 50 = .ok (vm, seen) :=
    ⟨_, _, rfl⟩
  exact ⟨vm, seen, h,
    (c10_buffer_independent_of_world_seen s0 items0 [] 21 2 50 []).2 vm seen h⟩


end YarrL
